import Mathlib

/-!
Shallow embedding of `src/src/feature_engineering.py` (class `MatchFeatureEngineer`).

Modelling conventions, chosen to mirror pandas semantics:

* A timestamp is a `Date` = (calendar year, instant within the year), compared
  lexicographically; `match_date` is `Option Date` with `none` standing for a
  missing/unparseable date (`NaT`).  In pandas every comparison against `NaT`
  is false, which is what `ltDateB` below implements, and `sort_values` puts
  `NaT` rows last, which is what `odLe` (with `none` as the top element)
  implements.
* Nullable integer columns (`score_home_team`, `score_guest_team`) are
  `Option Int`; arithmetic on them (`optAdd`, `optSub`) propagates `none`
  exactly as pandas `masked_arith_op` propagates `NaN`.
* `winning_team` is `Option String` (`none` = `NaN`); the source compares it
  with string literals, and `NaN == "draw"` is `False`, which is what
  equality on `Option String` gives.
* The `extra` field stands for all further input columns of the table; the
  engine never reads or writes them, so they ride along unchanged.
* Row iteration order: each public method starts with
  `df.sort_values(date_col)`; we model it by `insertionSort` with the `odLe`
  key order (a deterministic sort, matching the deterministic order pandas
  produces).
-/

/-- A parseable kickoff timestamp: calendar year plus the instant within the
year, ordered lexicographically (isomorphic to comparing raw timestamps). -/
structure Date where
  year : Int
  day : Int
deriving DecidableEq, Repr

/-- Strict order on parseable dates (raw timestamp comparison). -/
def Date.lt (a b : Date) : Prop :=
  a.year < b.year ∨ (a.year = b.year ∧ a.day < b.day)

/-- Reflexive order on parseable dates. -/
def Date.le (a b : Date) : Prop :=
  a.year < b.year ∨ (a.year = b.year ∧ a.day ≤ b.day)

instance (a b : Date) : Decidable (Date.lt a b) := by
  unfold Date.lt; infer_instance

instance (a b : Date) : Decidable (Date.le a b) := by
  unfold Date.le; infer_instance

/-- Sort-key order on nullable dates: pandas `sort_values` places `NaT`
(`none`) after every real timestamp. -/
def odLe : Option Date → Option Date → Prop
  | some a, some b => Date.le a b
  | _, none => True
  | none, some _ => False

instance : ∀ a b : Option Date, Decidable (odLe a b)
  | some a, some b => inferInstanceAs (Decidable (Date.le a b))
  | some _, none => inferInstanceAs (Decidable True)
  | none, none => inferInstanceAs (Decidable True)
  | none, some _ => inferInstanceAs (Decidable False)

/-- pandas comparison `a < b` on nullable timestamps: any comparison with
`NaT` is `False`. -/
def ltDateB : Option Date → Option Date → Bool
  | some a, some b => decide (Date.lt a b)
  | _, _ => false

/-- `NaN`-propagating addition on a nullable integer column. -/
def optAdd : Option Int → Option Int → Option Int
  | some a, some b => some (a + b)
  | _, _ => none

/-- `NaN`-propagating subtraction on a nullable integer column. -/
def optSub : Option Int → Option Int → Option Int
  | some a, some b => some (a - b)
  | _, _ => none

/-- One row of the input table (required columns of `FeatureConfig`); `extra`
stands for any further input columns, which the engine carries through
untouched. -/
structure MatchRow where
  match_date : Option Date
  home_team : String
  guest_team : String
  score_home_team : Option Int
  score_guest_team : Option Int
  winning_team : Option String
  extra : Int
deriving DecidableEq, Repr

/-- Key function for the chronological sort. -/
def rowDate (r : MatchRow) : Option Date := r.match_date

/-- The row order used by `df.sort_values(self.config.date_col)`. -/
def rowLe {α : Type} (base : α → MatchRow) (a b : α) : Prop :=
  odLe (base a).match_date (base b).match_date

instance {α : Type} (base : α → MatchRow) (a b : α) :
    Decidable (rowLe base a b) := by
  unfold rowLe; infer_instance

/-- `df.sort_values(self.config.date_col)` (ascending, `NaT` last). -/
def sortByDate {α : Type} (base : α → MatchRow) (l : List α) : List α :=
  List.insertionSort (rowLe base) l

/-- Descending-date order used by
`past_matches.sort_values(date_col, ascending=False)`. -/
def rowGe (a b : MatchRow) : Prop := odLe b.match_date a.match_date

instance (a b : MatchRow) : Decidable (rowGe a b) := by
  unfold rowGe; infer_instance

/-- Whether `team_name` occupies either side of the row (the mask
`(df[home] == team) | (df[guest] == team)`). -/
def playsB (team : String) (r : MatchRow) : Bool :=
  r.home_team == team || r.guest_team == team

/-- Aggregate produced by `_calculate_team_stats_last_n`.  The three
counters start at integer `0` and are only ever incremented; the goal sums
start at integer `0` but absorb `NaN` (`none`) if a window match has a
missing score, exactly as the Python `+=` does. -/
structure RecentStats where
  wins : Nat
  draws : Nat
  loses : Nat
  goals_scored : Option Int
  goals_conceded : Option Int
  goal_difference : Option Int
deriving DecidableEq, Repr

/-- The `stats` dict as first initialised (lines 55-61). -/
def initRecentStats : RecentStats :=
  { wins := 0, draws := 0, loses := 0,
    goals_scored := some 0, goals_conceded := some 0, goal_difference := some 0 }

/-- One iteration of the `for _, match in past_matches.iterrows()` loop
(lines 63-82). -/
def recentStep (team : String) (s : RecentStats) (r : MatchRow) : RecentStats :=
  let is_home := r.home_team == team
  let gs := if is_home then r.score_home_team else r.score_guest_team
  let gc := if is_home then r.score_guest_team else r.score_home_team
  let s :=
    { s with goals_scored := optAdd s.goals_scored gs,
             goals_conceded := optAdd s.goals_conceded gc }
  if r.winning_team = some "draw" then
    { s with draws := s.draws + 1 }
  else if (r.winning_team = some "home" && is_home)
      || (r.winning_team = some "guest" && !is_home) then
    { s with wins := s.wins + 1 }
  else
    { s with loses := s.loses + 1 }

/-- The `past_matches` frame of `_calculate_team_stats_last_n` (lines 43-53):
rows where the team plays and `date < match_date`, sorted by date descending,
truncated to `n_matches`. -/
def recentWindow (df : List MatchRow) (team : String) (md : Option Date)
    (n : Nat) : List MatchRow :=
  ((df.filter (fun r => playsB team r && ltDateB r.match_date md)).insertionSort
      rowGe).take n

/-- `_calculate_team_stats_last_n` (lines 35-85). -/
def calculate_team_stats_last_n (df : List MatchRow) (team : String)
    (md : Option Date) (n : Nat) : RecentStats :=
  let s := (recentWindow df team md n).foldl (recentStep team) initRecentStats
  { s with goal_difference := optSub s.goals_scored s.goals_conceded }

/-- The pair of per-side aggregates written by
`add_recent_performance_features` onto one row (columns
`home_team_*_last_5` and `guest_team_*_last_5`). -/
structure RecentFeats where
  home : RecentStats
  guest : RecentStats
deriving DecidableEq, Repr

/-- The pair of calls of lines 100-122 for one row: last-5 stats of the
row's home and guest teams, cut off at the row's own date. -/
def recentFor (s : List MatchRow) (r : MatchRow) : RecentFeats :=
  { home := calculate_team_stats_last_n s r.home_team r.match_date 5,
    guest := calculate_team_stats_last_n s r.guest_team r.match_date 5 }

/-- `add_recent_performance_features` (lines 87-124), generic in the payload
`α` a row may already carry (`base` projects out the six required columns).
The method copies the frame, sorts it by date, and fills the twelve
`*_last_5` columns row by row; `_calculate_team_stats_last_n` reads only the
six base columns of the (sorted) frame, never the feature columns, so the
per-row computation is a function of the sorted base table and the row's own
team names and date. -/
def add_recent_performance_features {α : Type} (base : α → MatchRow)
    (df : List α) : List (α × RecentFeats) :=
  let s := sortByDate base df
  s.map (fun a => (a, recentFor (s.map base) (base a)))

/-- One value of the `standings` dict of `add_season_position_features`:
`{"points": …, "goals_scored": …, "goals_conceded": …}`. -/
structure Standing where
  points : Int
  goals_scored : Int
  goals_conceded : Int
deriving DecidableEq, Repr

/-- The `standings` dict, as an insertion-ordered association list (Python
dicts preserve insertion order, which feeds the ranking sort). -/
abbrev StandingsState : Type := List (String × Standing)

/-- `if team not in standings: standings[team] = {0,0,0}` (lines 140-145). -/
def getOrInit (st : StandingsState) (team : String) : StandingsState :=
  if st.any (fun e => e.1 == team) then st else st ++ [(team, ⟨0, 0, 0⟩)]

/-- The goal and points increments applied to `standings[team]`
(lines 147-155); the points delta replays the `if result == …` chain. -/
def bumpTeam (st : StandingsState) (team : String) (gf ga pts : Int) :
    StandingsState :=
  st.map (fun e =>
    if e.1 == team then
      (e.1, { points := e.2.points + pts,
              goals_scored := e.2.goals_scored + gf,
              goals_conceded := e.2.goals_conceded + ga })
    else e)

/-- `_update_standings` (lines 126-155): the loop body runs first for
`(home_team, home_goals, guest_goals)` and then for
`(guest_team, guest_goals, home_goals)`. -/
def update_standings (st : StandingsState) (home_team guest_team : String)
    (home_goals guest_goals : Int) (result : Option String) : StandingsState :=
  let upd := fun (st : StandingsState) (team : String) (gf ga : Int) =>
    let st := getOrInit st team
    bumpTeam st team gf ga
      (if result = some "draw" then 1
       else if (result = some "home" && team == home_team)
           || (result = some "guest" && team == guest_team) then 3
       else 0)
  upd (upd st home_team home_goals guest_goals) guest_team guest_goals home_goals

/-- One row of the transient `table` frame built from the standings dict
(lines 185-197): cumulative stats plus the 1-based `position`. -/
structure TableRow where
  team : String
  points : Int
  goals_scored : Int
  goals_conceded : Int
  goal_difference : Int
  position : Int
deriving DecidableEq, Repr

/-- Descending three-level sort key of the standings sort
(`by=["points", "goal_difference", "goals_scored"]`, all descending):
`a` may precede `b` iff `a`'s key is lexicographically ≥ `b`'s. -/
def standGe (a b : String × Standing) : Prop :=
  b.2.points < a.2.points
  ∨ (b.2.points = a.2.points
     ∧ (b.2.goals_scored - b.2.goals_conceded < a.2.goals_scored - a.2.goals_conceded
        ∨ (b.2.goals_scored - b.2.goals_conceded = a.2.goals_scored - a.2.goals_conceded
           ∧ b.2.goals_scored ≤ a.2.goals_scored)))

instance (a b : String × Standing) : Decidable (standGe a b) := by
  unfold standGe; infer_instance

/-- The `table` frame of lines 185-197: the standings entries with the
recomputed `goal_difference`, sorted descending by
(points, goal_difference, goals_scored), with `position = index + 1`. -/
def standingsTable (st : StandingsState) : List TableRow :=
  ((st.insertionSort standGe).enum).map (fun p =>
    { team := p.2.1,
      points := p.2.2.points,
      goals_scored := p.2.2.goals_scored,
      goals_conceded := p.2.2.goals_conceded,
      goal_difference := p.2.2.goals_scored - p.2.2.goals_conceded,
      position := (p.1 : Int) + 1 })

/-- Per-side columns written by `add_season_position_features` (lines
199-214): position stays `None` when the team has no standings row yet. -/
structure SideFeats where
  current_position : Option Int
  goals_scored : Int
  goals_conceded : Int
  goal_difference : Int
deriving DecidableEq, Repr

/-- The lookup of lines 200-214: the first `table` row of the team, if any;
otherwise the columns keep their initialised values (`None` / `0`). -/
def sideFeats (t : List TableRow) (team : String) : SideFeats :=
  match t.find? (fun r => r.team == team) with
  | some r => { current_position := some r.position,
                goals_scored := r.goals_scored,
                goals_conceded := r.goals_conceded,
                goal_difference := r.goal_difference }
  | none => { current_position := none, goals_scored := 0,
              goals_conceded := 0, goal_difference := 0 }

/-- `df["year"]`: `pd.to_datetime(df[date_col]).dt.year`, `NaN` for `NaT`. -/
def yearOf (r : MatchRow) : Option Int := r.match_date.map Date.year

/-- Python `!=` on two year cells where `none` is `NaN`: any comparison
involving `NaN` is unequal (`NaN != NaN` is `True`). -/
def pyNe : Option Int → Option Int → Bool
  | some x, some y => x != y
  | _, _ => true

/-- Replay state of `add_season_position_features`: the standings dict and
`current_year` (`none` = the initial Python `None`, `some y` after the first
row, where `y` itself is `none` for a `NaT` year). -/
structure PosState where
  standings : StandingsState
  current_year : Option (Option Int)
deriving DecidableEq, Repr

/-- Initial replay state (`standings = {}`, `current_year = None`). -/
def initPosState : PosState := ⟨[], none⟩

/-- The `year != current_year` test of line 177. -/
def needsReset (y : Option Int) (cur : Option (Option Int)) : Bool :=
  match cur with
  | none => true
  | some c => pyNe y c

/-- Columns computed for one row before the ledger commit (lines 184-214):
the `year` helper column and both sides' pre-match standing. -/
structure PosCore where
  year : Option Int
  home : SideFeats
  guest : SideFeats
deriving DecidableEq, Repr

/-- Lines 216-227: the standings dict is mutated via `_update_standings`
iff both score cells are non-null. -/
def commitIfComplete (st : StandingsState) (r : MatchRow) : StandingsState :=
  match r.score_home_team, r.score_guest_team with
  | some hg, some gg =>
      update_standings st r.home_team r.guest_team hg gg r.winning_team
  | _, _ => st

/-- One iteration of the `for idx, row in df.iterrows()` loop of
`add_season_position_features` (lines 173-227): reset on year change, read
both sides' features from the pre-match table, then commit the result. -/
def posStep (st : PosState) (r : MatchRow) : PosCore × PosState :=
  let y := yearOf r
  let standings0 := if needsReset y st.current_year then ([] : StandingsState)
                    else st.standings
  let table := standingsTable standings0
  (⟨y, sideFeats table r.home_team, sideFeats table r.guest_team⟩,
   ⟨commitIfComplete standings0 r, some y⟩)

/-- The replay loop: each row receives its `PosCore` and threads the state. -/
def posReplay {α : Type} (base : α → MatchRow) :
    PosState → List α → List (α × PosCore)
  | _, [] => []
  | st, a :: rest =>
      let p := posStep st (base a)
      (a, p.1) :: posReplay base p.2 rest

/-- The state after replaying a list of rows. -/
def posFold {α : Type} (base : α → MatchRow) (st : PosState) (l : List α) :
    PosState :=
  l.foldl (fun s a => (posStep s (base a)).2) st

/-- All columns `add_season_position_features` adds to a row: the per-row
core plus the three difference columns of lines 229-238 (`None` positions
propagate as `NaN` through the masked subtraction). -/
structure PosFeats where
  year : Option Int
  home : SideFeats
  guest : SideFeats
  home_team_position_difference : Option Int
  home_team_goal_scored_difference : Int
  home_team_goal_conceded_difference : Int
deriving DecidableEq, Repr

/-- Lines 229-238, as the per-row function they are. -/
def attachPosDiffs (c : PosCore) : PosFeats :=
  { year := c.year, home := c.home, guest := c.guest,
    home_team_position_difference :=
      optSub c.home.current_position c.guest.current_position,
    home_team_goal_scored_difference :=
      c.home.goals_scored - c.guest.goals_scored,
    home_team_goal_conceded_difference :=
      c.home.goals_conceded - c.guest.goals_conceded }

/-- `add_season_position_features` (lines 157-240). -/
def add_season_position_features {α : Type} (base : α → MatchRow)
    (df : List α) : List (α × PosFeats) :=
  (posReplay base initPosState (sortByDate base df)).map
    (fun p => (p.1, attachPosDiffs p.2))

/-- One value of the `team_stats` dict of `add_season_performance_features`:
`{"wins": …, "draws": …, "losses": …}`. -/
structure TeamRecord where
  wins : Nat
  draws : Nat
  losses : Nat
deriving DecidableEq, Repr

/-- The `team_stats` dict (insertion-ordered, though order is never used). -/
abbrev PerfDict : Type := List (String × TeamRecord)

/-- Replay state of `add_season_performance_features`. -/
structure PerfState where
  team_stats : PerfDict
  current_year : Option (Option Int)
deriving DecidableEq, Repr

/-- Initial replay state (`team_stats = {}`, `current_year = None`). -/
def initPerfState : PerfState := ⟨[], none⟩

/-- `if team not in team_stats: team_stats[team] = {0,0,0}` (lines 270-272). -/
def perfInit (ts : PerfDict) (team : String) : PerfDict :=
  if ts.any (fun e => e.1 == team) then ts else ts ++ [(team, ⟨0, 0, 0⟩)]

/-- Dict read `team_stats[team]` (defined after `perfInit` has run). -/
def perfGet (ts : PerfDict) (team : String) : TeamRecord :=
  match ts.find? (fun e => e.1 == team) with
  | some e => e.2
  | none => ⟨0, 0, 0⟩

/-- Pointwise update of `team_stats[team]`. -/
def perfBump (ts : PerfDict) (team : String) (f : TeamRecord → TeamRecord) :
    PerfDict :=
  ts.map (fun e => if e.1 == team then (e.1, f e.2) else e)

/-- The three `*_so_far` counters written onto one row (lines 275-278). -/
structure PerfCore where
  year : Option Int
  home_wins_so_far : Nat
  home_draws_so_far : Nat
  home_losses_so_far : Nat
  guest_wins_so_far : Nat
  guest_draws_so_far : Nat
  guest_losses_so_far : Nat
deriving DecidableEq, Repr

/-- Lines 280-290: update the dict after the row iff `pd.notna(result)`;
a non-null result other than `home`/`guest`/`draw` matches no branch. -/
def perfCommit (ts : PerfDict) (home guest : String) (result : Option String) :
    PerfDict :=
  match result with
  | none => ts
  | some res =>
      if res = "home" then
        perfBump (perfBump ts home (fun t => { t with wins := t.wins + 1 }))
          guest (fun t => { t with losses := t.losses + 1 })
      else if res = "guest" then
        perfBump (perfBump ts guest (fun t => { t with wins := t.wins + 1 }))
          home (fun t => { t with losses := t.losses + 1 })
      else if res = "draw" then
        perfBump (perfBump ts home (fun t => { t with draws := t.draws + 1 }))
          guest (fun t => { t with draws := t.draws + 1 })
      else ts

/-- One iteration of the loop of `add_season_performance_features`
(lines 257-290): reset on year change, lazily create both teams' records,
read the pre-match counters, then commit the result. -/
def perfStep (st : PerfState) (r : MatchRow) : PerfCore × PerfState :=
  let y := yearOf r
  let ts0 := if needsReset y st.current_year then ([] : PerfDict)
             else st.team_stats
  let ts1 := perfInit (perfInit ts0 r.home_team) r.guest_team
  let hrec := perfGet ts1 r.home_team
  let grec := perfGet ts1 r.guest_team
  (⟨y, hrec.wins, hrec.draws, hrec.losses, grec.wins, grec.draws, grec.losses⟩,
   ⟨perfCommit ts1 r.home_team r.guest_team r.winning_team, some y⟩)

/-- The replay loop of `add_season_performance_features`. -/
def perfReplay {α : Type} (base : α → MatchRow) :
    PerfState → List α → List (α × PerfCore)
  | _, [] => []
  | st, a :: rest =>
      let p := perfStep st (base a)
      (a, p.1) :: perfReplay base p.2 rest

/-- The state after replaying a list of rows. -/
def perfFold {α : Type} (base : α → MatchRow) (st : PerfState) (l : List α) :
    PerfState :=
  l.foldl (fun s a => (perfStep s (base a)).2) st

/-- The masked rate computation of lines 299-303: assigned only where
`total > 0`, `NaN` (`none`) elsewhere. -/
def rawPct (count total : Nat) : Option ℚ :=
  if 0 < total then some ((count : ℚ) / (total : ℚ)) else none

/-- `fillna(0.0)` (lines 305-314). -/
def fillna0 (o : Option ℚ) : Option ℚ :=
  match o with
  | some q => some q
  | none => some 0

/-- All columns `add_season_performance_features` adds to a row: counters,
rates (lines 292-314) and difference columns (lines 316-325). -/
structure PerfFeats where
  year : Option Int
  home_wins_so_far : Nat
  home_draws_so_far : Nat
  home_losses_so_far : Nat
  guest_wins_so_far : Nat
  guest_draws_so_far : Nat
  guest_losses_so_far : Nat
  home_wins_pct_so_far : Option ℚ
  home_draws_pct_so_far : Option ℚ
  home_losses_pct_so_far : Option ℚ
  guest_wins_pct_so_far : Option ℚ
  guest_draws_pct_so_far : Option ℚ
  guest_losses_pct_so_far : Option ℚ
  wins_difference : Int
  draws_difference : Int
  losses_difference : Int
deriving DecidableEq, Repr

/-- Lines 292-325, as the per-row function of the `*_so_far` columns they
are (the column-wise pass reads only this row's counters). -/
def attachPerfTail (c : PerfCore) : PerfFeats :=
  let htot := c.home_wins_so_far + c.home_draws_so_far + c.home_losses_so_far
  let gtot := c.guest_wins_so_far + c.guest_draws_so_far + c.guest_losses_so_far
  { year := c.year,
    home_wins_so_far := c.home_wins_so_far,
    home_draws_so_far := c.home_draws_so_far,
    home_losses_so_far := c.home_losses_so_far,
    guest_wins_so_far := c.guest_wins_so_far,
    guest_draws_so_far := c.guest_draws_so_far,
    guest_losses_so_far := c.guest_losses_so_far,
    home_wins_pct_so_far := fillna0 (rawPct c.home_wins_so_far htot),
    home_draws_pct_so_far := fillna0 (rawPct c.home_draws_so_far htot),
    home_losses_pct_so_far := fillna0 (rawPct c.home_losses_so_far htot),
    guest_wins_pct_so_far := fillna0 (rawPct c.guest_wins_so_far gtot),
    guest_draws_pct_so_far := fillna0 (rawPct c.guest_draws_so_far gtot),
    guest_losses_pct_so_far := fillna0 (rawPct c.guest_losses_so_far gtot),
    wins_difference := (c.home_wins_so_far : Int) - c.guest_wins_so_far,
    draws_difference := (c.home_draws_so_far : Int) - c.guest_draws_so_far,
    losses_difference := (c.home_losses_so_far : Int) - c.guest_losses_so_far }

/-- `add_season_performance_features` (lines 242-327).  The `year` column it
writes overwrites the identically-valued one of the previous stage. -/
def add_season_performance_features {α : Type} (base : α → MatchRow)
    (df : List α) : List (α × PerfFeats) :=
  (perfReplay base initPerfState (sortByDate base df)).map
    (fun p => (p.1, attachPerfTail p.2))

/-- The row type of the final table: the original row with the three groups
of feature columns attached. -/
abbrev OutRow : Type := ((MatchRow × RecentFeats) × PosFeats) × PerfFeats

/-- The original-columns projection of an output row. -/
def outBase (e : OutRow) : MatchRow := e.1.1.1

/-- All feature columns of an output row. -/
def featPack (e : OutRow) : RecentFeats × PosFeats × PerfFeats :=
  (e.1.1.2, e.1.2, e.2)

/-- `process` (lines 329-337).  `_validate_dataframe` only checks that the
six required columns exist; the `MatchRow` schema has them by construction,
so every modelled table passes validation. -/
def process (df : List MatchRow) : List OutRow :=
  add_season_performance_features (fun x => x.1.1)
    (add_season_position_features (fun x => x.1)
      (add_recent_performance_features id df))

/-- The standings state after the full replay of
`add_season_position_features` (the value of the `standings` local when the
loop of lines 173-227 finishes). -/
def posFinalState (df : List MatchRow) : PosState :=
  posFold id initPosState (sortByDate id df)

/-!  Order facts about dates and the sort relations.  -/

theorem Date.le_total' (a b : Date) : a.le b ∨ b.le a := by
  unfold Date.le; omega

theorem Date.le_trans' {a b c : Date} (h1 : a.le b) (h2 : b.le c) : a.le c := by
  unfold Date.le at *; omega

theorem Date.le_antisymm' {a b : Date} (h1 : a.le b) (h2 : b.le a) : a = b := by
  obtain ⟨ay, ad⟩ := a; obtain ⟨b1, b2⟩ := b
  simp only [Date.le] at h1 h2
  simp only [Date.mk.injEq]
  omega

theorem Date.eq_of_le_of_not_lt {a b : Date} (h1 : a.le b) (h2 : ¬ a.lt b) :
    a = b := by
  obtain ⟨ay, ad⟩ := a; obtain ⟨b1, b2⟩ := b
  simp only [Date.le] at h1; simp only [Date.lt] at h2
  simp only [Date.mk.injEq]
  omega

theorem Date.not_lt_of_le {a b : Date} (h1 : a.le b) : ¬ b.lt a := by
  unfold Date.le at h1; unfold Date.lt; omega

theorem odLe_total (a b : Option Date) : odLe a b ∨ odLe b a := by
  cases a <;> cases b <;> simp only [odLe]
  · exact Or.inl trivial
  · exact Or.inr trivial
  · exact Or.inl trivial
  · exact Date.le_total' _ _

theorem odLe_trans {a b c : Option Date} (h1 : odLe a b) (h2 : odLe b c) :
    odLe a c := by
  cases a <;> cases b <;> cases c <;> simp only [odLe] at *
  exact Date.le_trans' h1 h2

instance {α : Type} (base : α → MatchRow) : IsTotal α (rowLe base) :=
  ⟨fun x y => odLe_total (base x).match_date (base y).match_date⟩

instance {α : Type} (base : α → MatchRow) : IsTrans α (rowLe base) :=
  ⟨fun _ _ _ h1 h2 => odLe_trans h1 h2⟩

instance : IsTotal MatchRow rowGe := by
  constructor; intro a b; unfold rowGe
  exact (odLe_total a.match_date b.match_date).symm

instance : IsTrans MatchRow rowGe := by
  constructor; intro a b c h1 h2; unfold rowGe at *
  exact odLe_trans h2 h1

instance : IsTotal (String × Standing) standGe := by
  constructor; intro x y; unfold standGe; omega

instance : IsTrans (String × Standing) standGe := by
  constructor; intro _x _y _z h1 h2; unfold standGe at *; omega

theorem sortByDate_perm {α : Type} (base : α → MatchRow) (l : List α) :
    List.Perm (sortByDate base l) l :=
  List.perm_insertionSort _ l

theorem sortByDate_sorted {α : Type} (base : α → MatchRow) (l : List α) :
    (sortByDate base l).Sorted (rowLe base) :=
  List.sorted_insertionSort _ l

/-- Two sorted lists that are permutations of each other and whose keys are
pairwise distinct are equal (the key order need only be antisymmetric). -/
theorem eq_of_perm_of_sorted_of_nodup_keys {α κ : Type} (key : α → κ)
    (le : κ → κ → Prop) (hanti : ∀ x y, le x y → le y x → x = y) :
    ∀ {l₁ l₂ : List α}, List.Perm l₁ l₂ →
      l₁.Sorted (fun a b => le (key a) (key b)) →
      l₂.Sorted (fun a b => le (key a) (key b)) →
      (l₁.map key).Nodup → l₁ = l₂ := by
  intro l₁
  induction l₁ with
  | nil =>
      intro l₂ hp _ _ _
      exact (hp.nil_eq).symm ▸ rfl
  | cons a t ih =>
      intro l₂ hp hs₁ hs₂ hnd
      match l₂ with
      | [] => exact absurd hp.eq_nil (by simp)
      | b :: t₂ =>
          have hb : b ∈ a :: t := hp.symm.subset (List.mem_cons_self b t₂)
          by_cases hab : a = b
          · subst hab
            have ht : t = t₂ :=
              ih hp.cons_inv hs₁.of_cons hs₂.of_cons
                (by simpa using hnd.of_cons)
            rw [ht]
          · have hbt : b ∈ t := by
              rcases List.mem_cons.1 hb with h | h
              · exact absurd h.symm hab
              · exact h
            have hat2 : a ∈ t₂ := by
              have : a ∈ b :: t₂ := hp.subset (List.mem_cons_self a t)
              rcases List.mem_cons.1 this with h | h
              · exact absurd h hab
              · exact h
            have h1 : le (key a) (key b) :=
              List.rel_of_sorted_cons hs₁ b hbt
            have h2 : le (key b) (key a) :=
              List.rel_of_sorted_cons hs₂ a hat2
            have hk : key a = key b := hanti _ _ h1 h2
            have : key a ∉ t.map key := by
              have := hnd
              simp only [List.map_cons, List.nodup_cons] at this
              exact this.1
            exact absurd (hk ▸ List.mem_map_of_mem key hbt) this

/-- Tables whose parseable kickoffs are pairwise distinct: the list of
non-null dates has no duplicate. -/
def distinctDates (l : List MatchRow) : Prop :=
  (l.filterMap MatchRow.match_date).Nodup

instance (l : List MatchRow) : Decidable (distinctDates l) := by
  unfold distinctDates; infer_instance

theorem distinctDates_of_perm {l₁ l₂ : List MatchRow}
    (hp : List.Perm l₁ l₂) (h : distinctDates l₁) : distinctDates l₂ :=
  ((hp.filterMap MatchRow.match_date).nodup_iff).1 h

/-- A date-sorted list containing a row `m` with parseable date `d`, all
parseable dates distinct, splits as (rows strictly before `d`) ++ `m` ++
(rows at other dates). -/
theorem sorted_split_at_date {d : Date} :
    ∀ {l : List MatchRow}, l.Sorted (rowLe id) →
      ∀ {m : MatchRow}, m ∈ l → m.match_date = some d → distinctDates l →
        ∃ suf, l = l.filter (fun r => ltDateB r.match_date (some d)) ++ m :: suf
          ∧ ∀ x ∈ suf, x.match_date ≠ some d := by
  intro l
  induction l with
  | nil => intro _ m hm; exact absurd hm (by simp)
  | cons h t ih =>
      intro hs m hm hmd hnd
      by_cases hlt : ltDateB h.match_date (some d) = true
      · have hmh : m ≠ h := by
          intro he
          rw [← he, hmd] at hlt
          simp only [ltDateB, decide_eq_true_eq, Date.lt] at hlt
          omega
        have hmt : m ∈ t := by
          rcases List.mem_cons.1 hm with he | ht
          · exact absurd he hmh
          · exact ht
        have hndt : distinctDates t := by
          unfold distinctDates at hnd ⊢
          cases hh : h.match_date with
          | none => simpa only [List.filterMap_cons, hh] using hnd
          | some dh =>
              simp only [List.filterMap_cons, hh] at hnd
              exact hnd.of_cons
        obtain ⟨suf, hsplit, hsuf⟩ := ih hs.of_cons hmt hmd hndt
        refine ⟨suf, ?_, hsuf⟩
        rw [List.filter_cons, if_pos hlt]
        calc h :: t = h :: (t.filter (fun r => ltDateB r.match_date (some d))
                ++ m :: suf) := by rw [← hsplit]
          _ = _ := by simp
      · have hhm : h = m := by
          by_cases hhm : h = m
          · exact hhm
          · exfalso
            have hmt : m ∈ t := by
              rcases List.mem_cons.1 hm with he | ht
              · exact absurd he.symm hhm
              · exact ht
            have hle : odLe h.match_date m.match_date :=
              List.rel_of_sorted_cons hs m hmt
            rw [hmd] at hle
            cases hh : h.match_date with
            | none => rw [hh] at hle; simp only [odLe] at hle
            | some dh =>
                rw [hh] at hle
                simp only [odLe] at hle
                have hnlt : ¬ Date.lt dh d := by
                  intro hc
                  rw [hh] at hlt
                  simp only [ltDateB, decide_eq_true_eq] at hlt
                  exact hlt hc
                have hd1 : h.match_date = some d := by
                  rw [hh, Date.eq_of_le_of_not_lt hle hnlt]
                unfold distinctDates at hnd
                simp only [List.filterMap_cons, hd1] at hnd
                exact (List.nodup_cons.1 hnd).1
                  (List.mem_filterMap.2 ⟨m, hmt, hmd⟩)
        subst hhm
        have hfilt : (h :: t).filter
            (fun r => ltDateB r.match_date (some d)) = [] := by
          rw [List.filter_cons, if_neg hlt, List.filter_eq_nil_iff]
          intro x hx
          have hle : odLe h.match_date x.match_date :=
            List.rel_of_sorted_cons hs x hx
          rw [hmd] at hle
          cases hh : x.match_date with
          | none => simp [ltDateB]
          | some dx =>
              rw [hh] at hle
              simp only [odLe] at hle
              simp only [ltDateB, decide_eq_true_eq]
              exact Date.not_lt_of_le hle
        refine ⟨t, by rw [hfilt]; simp, ?_⟩
        intro x hx hxd
        unfold distinctDates at hnd
        simp only [List.filterMap_cons, hmd] at hnd
        exact (List.nodup_cons.1 hnd).1 (List.mem_filterMap.2 ⟨x, hx, hxd⟩)

/-!  Replay bookkeeping lemmas.  -/

theorem posReplay_nil {α : Type} (base : α → MatchRow) (st : PosState) :
    posReplay base st [] = [] := rfl

theorem posReplay_cons {α : Type} (base : α → MatchRow) (st : PosState)
    (a : α) (l : List α) :
    posReplay base st (a :: l) =
      (a, (posStep st (base a)).1) ::
        posReplay base (posStep st (base a)).2 l := rfl

theorem posReplay_append {α : Type} (base : α → MatchRow) (st : PosState)
    (l₁ l₂ : List α) :
    posReplay base st (l₁ ++ l₂) =
      posReplay base st l₁ ++ posReplay base (posFold base st l₁) l₂ := by
  induction l₁ generalizing st with
  | nil => simp [posReplay_nil, posFold]
  | cons a t ih =>
      simp only [List.cons_append, posReplay_cons, ih, posFold, List.foldl_cons]

theorem posReplay_map_fst {α : Type} (base : α → MatchRow) (st : PosState)
    (l : List α) : (posReplay base st l).map Prod.fst = l := by
  induction l generalizing st with
  | nil => rfl
  | cons a t ih => simp [posReplay_cons, ih]

theorem posFold_eq_map {α : Type} (base : α → MatchRow) (st : PosState)
    (l : List α) : posFold base st l = posFold id st (l.map base) := by
  unfold posFold
  rw [List.foldl_map]
  rfl

theorem perfReplay_nil {α : Type} (base : α → MatchRow) (st : PerfState) :
    perfReplay base st [] = [] := rfl

theorem perfReplay_cons {α : Type} (base : α → MatchRow) (st : PerfState)
    (a : α) (l : List α) :
    perfReplay base st (a :: l) =
      (a, (perfStep st (base a)).1) ::
        perfReplay base (perfStep st (base a)).2 l := rfl

theorem perfReplay_append {α : Type} (base : α → MatchRow) (st : PerfState)
    (l₁ l₂ : List α) :
    perfReplay base st (l₁ ++ l₂) =
      perfReplay base st l₁ ++ perfReplay base (perfFold base st l₁) l₂ := by
  induction l₁ generalizing st with
  | nil => simp [perfReplay_nil, perfFold]
  | cons a t ih =>
      simp only [List.cons_append, perfReplay_cons, ih, perfFold, List.foldl_cons]

theorem perfReplay_map_fst {α : Type} (base : α → MatchRow) (st : PerfState)
    (l : List α) : (perfReplay base st l).map Prod.fst = l := by
  induction l generalizing st with
  | nil => rfl
  | cons a t ih => simp [perfReplay_cons, ih]

theorem perfFold_eq_map {α : Type} (base : α → MatchRow) (st : PerfState)
    (l : List α) : perfFold base st l = perfFold id st (l.map base) := by
  unfold perfFold
  rw [List.foldl_map]
  rfl

/-- The columns a row receives from `posStep` depend only on the state and
on its teams and date, never on its own scores or result. -/
theorem posStep_fst_congr (st : PosState) {r r' : MatchRow}
    (hh : r.home_team = r'.home_team) (hg : r.guest_team = r'.guest_team)
    (hd : r.match_date = r'.match_date) :
    (posStep st r).1 = (posStep st r').1 := by
  simp only [posStep, yearOf, hh, hg, hd]

/-- The columns a row receives from `perfStep` depend only on the state and
on its teams and date, never on its own scores or result. -/
theorem perfStep_fst_congr (st : PerfState) {r r' : MatchRow}
    (hh : r.home_team = r'.home_team) (hg : r.guest_team = r'.guest_team)
    (hd : r.match_date = r'.match_date) :
    (perfStep st r).1 = (perfStep st r').1 := by
  simp only [perfStep, yearOf, hh, hg, hd]

/-!  A canonical form for `process`: since every stage starts by sorting on
the same date key and sorting an already-sorted list is the identity, the
whole pipeline is the single date sort followed by the three per-row
passes.  -/

theorem sorted_of_base_sorted {α : Type} (base : α → MatchRow) {l : List α}
    (h : (l.map base).Sorted (rowLe id)) : l.Sorted (rowLe base) := by
  exact List.Pairwise.of_map base (fun a b hab => hab) h

theorem sortByDate_eq_self {α : Type} (base : α → MatchRow) {l : List α}
    (h : l.Sorted (rowLe base)) : sortByDate base l = l :=
  List.Sorted.insertionSort_eq h

/-- The chronologically sorted base table. -/
def sortedRows (df : List MatchRow) : List MatchRow := sortByDate id df

/-- Stage-1 output in canonical form. -/
def stage1 (df : List MatchRow) : List (MatchRow × RecentFeats) :=
  (sortedRows df).map (fun r => (r, recentFor (sortedRows df) r))

/-- Stage-2 output in canonical form. -/
def stage2 (df : List MatchRow) : List ((MatchRow × RecentFeats) × PosFeats) :=
  (posReplay Prod.fst initPosState (stage1 df)).map
    (fun p => (p.1, attachPosDiffs p.2))

theorem stage1_map_fst (df : List MatchRow) :
    (stage1 df).map Prod.fst = sortedRows df := by
  unfold stage1
  rw [List.map_map]
  have h : Prod.fst ∘ (fun r => (r, recentFor (sortedRows df) r))
      = fun r => r := rfl
  rw [h, List.map_id']

theorem stage2_map_base (df : List MatchRow) :
    (stage2 df).map (fun x => x.1.1) = sortedRows df := by
  have h1 : (stage2 df).map (fun x => x.1.1)
      = ((posReplay Prod.fst initPosState (stage1 df)).map Prod.fst).map
          Prod.fst := by
    simp [stage2, Function.comp]
  rw [h1, posReplay_map_fst, stage1_map_fst]

/-- The pipeline with explicit replay states: `tbl` is the full table the
rolling-form pass queries, `s` the rows still to traverse. -/
def pipelineSt (tbl : List MatchRow) (pst : PosState) (qst : PerfState)
    (s : List MatchRow) : List OutRow :=
  (perfReplay (fun x => x.1.1) qst
    ((posReplay Prod.fst pst (s.map (fun r => (r, recentFor tbl r)))).map
      (fun p => (p.1, attachPosDiffs p.2)))).map
    (fun p => (p.1, attachPerfTail p.2))

theorem process_eq (df : List MatchRow) :
    process df =
      (perfReplay (fun x => x.1.1) initPerfState (stage2 df)).map
        (fun p => (p.1, attachPerfTail p.2)) := by
  have hs : (sortedRows df).Sorted (rowLe id) := sortByDate_sorted id df
  have h1 : add_recent_performance_features id df = stage1 df := by
    simp [add_recent_performance_features, stage1, sortedRows]
  have hsort1 : (stage1 df).Sorted (rowLe Prod.fst) :=
    sorted_of_base_sorted Prod.fst (by rw [stage1_map_fst]; exact hs)
  have h2 : add_season_position_features (fun x => x.1)
      (add_recent_performance_features id df) = stage2 df := by
    rw [h1]
    unfold add_season_position_features stage2
    rw [show sortByDate (fun x => x.1) (stage1 df) = stage1 df from
      sortByDate_eq_self _ hsort1]
  have hsort2 : (stage2 df).Sorted (rowLe (fun x => x.1.1)) :=
    sorted_of_base_sorted _ (by rw [stage2_map_base]; exact hs)
  unfold process
  rw [h2]
  unfold add_season_performance_features
  rw [show sortByDate (fun x => x.1.1) (stage2 df) = stage2 df from
    sortByDate_eq_self _ hsort2]

/-- `process` in fully canonical form. -/
theorem process_eq_pipelineSt (df : List MatchRow) :
    process df =
      pipelineSt (sortedRows df) initPosState initPerfState (sortedRows df) := by
  rw [process_eq]
  unfold pipelineSt stage2 stage1
  rfl

theorem pipelineSt_nil (tbl : List MatchRow) (pst : PosState)
    (qst : PerfState) : pipelineSt tbl pst qst [] = [] := by
  rfl

theorem pipelineSt_cons (tbl : List MatchRow) (pst : PosState)
    (qst : PerfState) (m : MatchRow) (l : List MatchRow) :
    pipelineSt tbl pst qst (m :: l) =
      (((m, recentFor tbl m), attachPosDiffs (posStep pst m).1),
        attachPerfTail (perfStep qst m).1) ::
        pipelineSt tbl (posStep pst m).2 (perfStep qst m).2 l := by
  unfold pipelineSt
  rw [List.map_cons, posReplay_cons, List.map_cons, perfReplay_cons,
    List.map_cons]

theorem pipelineSt_append (tbl : List MatchRow) (pst : PosState)
    (qst : PerfState) (l₁ l₂ : List MatchRow) :
    pipelineSt tbl pst qst (l₁ ++ l₂) =
      pipelineSt tbl pst qst l₁ ++
        pipelineSt tbl (posFold id pst l₁) (perfFold id qst l₁) l₂ := by
  induction l₁ generalizing pst qst with
  | nil =>
      simp only [List.nil_append]
      unfold posFold perfFold
      rfl
  | cons a t ih =>
      rw [List.cons_append, pipelineSt_cons, pipelineSt_cons, ih,
        List.cons_append]
      unfold posFold perfFold
      simp only [List.foldl_cons, id_eq]

theorem pipelineSt_map_outBase (tbl : List MatchRow) (pst : PosState)
    (qst : PerfState) (s : List MatchRow) :
    (pipelineSt tbl pst qst s).map outBase = s := by
  induction s generalizing pst qst with
  | nil => rfl
  | cons a t ih => rw [pipelineSt_cons, List.map_cons, ih]; rfl

theorem process_map_outBase (df : List MatchRow) :
    (process df).map outBase = sortedRows df := by
  rw [process_eq_pipelineSt, pipelineSt_map_outBase]

theorem odLe_antisymm {a b : Option Date} (h1 : odLe a b) (h2 : odLe b a) :
    a = b := by
  cases a with
  | none =>
      cases b with
      | none => rfl
      | some db => simp only [odLe] at h1
  | some da =>
      cases b with
      | none => simp only [odLe] at h2
      | some db => exact congrArg some (Date.le_antisymm' h1 h2)

theorem ltDateB_isSome {a b : Option Date} (h : ltDateB a b = true) :
    a.isSome := by
  cases a with
  | none => cases b <;> simp [ltDateB] at h
  | some _ => rfl

theorem map_date_nodup_of_all_some :
    ∀ {l : List MatchRow}, (∀ x ∈ l, (x.match_date).isSome) →
      distinctDates l → (l.map MatchRow.match_date).Nodup := by
  intro l
  induction l with
  | nil => intro _ _; simp
  | cons a t ih =>
      intro hall hnd
      obtain ⟨da, hda⟩ := Option.isSome_iff_exists.1 (hall a (by simp))
      unfold distinctDates at hnd
      simp only [List.filterMap_cons, hda] at hnd
      rw [List.map_cons, List.nodup_cons]
      constructor
      · intro hc
        obtain ⟨x, hx, hxd⟩ := List.mem_map.1 hc
        exact (List.nodup_cons.1 hnd).1
          (List.mem_filterMap.2 ⟨x, hx, by rw [hxd, hda]⟩)
      · exact ih (fun x hx => hall x (by simp [hx])) hnd.of_cons

/-- Rows of the sorted table strictly before date `d`: the information the
features of the date-`d` row may legitimately depend on. -/
def preOf (df : List MatchRow) (d : Date) : List MatchRow :=
  (sortedRows df).filter (fun r => ltDateB r.match_date (some d))

/-- The feature columns the pipeline computes for the row `m` found at date
`d`: rolling form from the full sorted table cut off at `d`, season features
from the states obtained by replaying exactly the rows before `d`. -/
def entryFeats (df : List MatchRow) (d : Date) (m : MatchRow) :
    RecentFeats × PosFeats × PerfFeats :=
  (recentFor (sortedRows df) m,
   attachPosDiffs (posStep (posFold id initPosState (preOf df d)) m).1,
   attachPerfTail (perfStep (perfFold id initPerfState (preOf df d)) m).1)

theorem mem_preOf_date_ne {df : List MatchRow} {d : Date} {x : MatchRow}
    (hx : x ∈ preOf df d) : x.match_date ≠ some d := by
  have hlt := List.of_mem_filter hx
  intro he
  rw [he] at hlt
  simp only [ltDateB, decide_eq_true_eq, Date.lt] at hlt
  omega

/-- In a table with pairwise-distinct parseable kickoffs, the output entry
sitting at parseable date `d` carries exactly the features computed from the
strictly-earlier rows (and the full table for rolling form). -/
theorem process_entry_eq (df : List MatchRow) (d : Date)
    (hdd : distinctDates df) {e : OutRow}
    (he : e ∈ process df) (hd : (outBase e).match_date = some d) :
    outBase e ∈ df ∧ featPack e = entryFeats df d (outBase e) := by
  have hs : (sortedRows df).Sorted (rowLe id) := sortByDate_sorted id df
  have hsperm : List.Perm (sortedRows df) df := sortByDate_perm id df
  have hdds : distinctDates (sortedRows df) :=
    distinctDates_of_perm hsperm.symm hdd
  have hm : outBase e ∈ sortedRows df := by
    have h1 := List.mem_map_of_mem outBase he
    rwa [process_map_outBase] at h1
  refine ⟨hsperm.subset hm, ?_⟩
  obtain ⟨suf, hsplit, hsufne⟩ := sorted_split_at_date hs hm hd hdds
  have hproc : process df =
      pipelineSt (sortedRows df) initPosState initPerfState
        (preOf df d ++ outBase e :: suf) := by
    rw [process_eq_pipelineSt]
    exact congrArg _ hsplit
  rw [hproc, pipelineSt_append, pipelineSt_cons] at he
  rcases List.mem_append.1 he with hin | hin
  · exfalso
    have h1 := List.mem_map_of_mem outBase hin
    rw [pipelineSt_map_outBase] at h1
    exact mem_preOf_date_ne h1 hd
  · rcases List.mem_cons.1 hin with heq | hin2
    · rw [heq]
      rfl
    · exfalso
      have h1 := List.mem_map_of_mem outBase hin2
      rw [pipelineSt_map_outBase] at h1
      exact hsufne _ h1 hd



/-- The two rolling-form window computations agree whenever the tables agree
on the sub-table of rows strictly before the cutoff. -/
theorem calc_eq_of_filter_eq {s₁ s₂ : List MatchRow} {md : Option Date}
    (hf : s₁.filter (fun r => ltDateB r.match_date md)
        = s₂.filter (fun r => ltDateB r.match_date md))
    (team : String) (n : Nat) :
    calculate_team_stats_last_n s₁ team md n
      = calculate_team_stats_last_n s₂ team md n := by
  have hsplit : ∀ s : List MatchRow,
      s.filter (fun r => playsB team r && ltDateB r.match_date md)
        = (s.filter (fun r => ltDateB r.match_date md)).filter
            (fun r => playsB team r) := by
    intro s
    rw [List.filter_filter]
  unfold calculate_team_stats_last_n recentWindow
  rw [hsplit, hsplit, hf]

theorem preOf_sorted (df : List MatchRow) (d : Date) :
    (preOf df d).Sorted (rowLe id) :=
  (sortByDate_sorted id df).filter _

theorem preOf_perm (df : List MatchRow) (d : Date) :
    List.Perm (preOf df d)
      (df.filter (fun r => ltDateB r.match_date (some d))) :=
  (sortByDate_perm id df).filter _

theorem preOf_distinct {df : List MatchRow} (d : Date)
    (hdd : distinctDates df) : distinctDates (preOf df d) := by
  have hdds : distinctDates (sortedRows df) :=
    distinctDates_of_perm (sortByDate_perm id df).symm hdd
  unfold distinctDates at *
  exact hdds.sublist ((List.filter_sublist _).filterMap _)

/-- The strictly-before-`d` part of the sorted table is determined by the
multiset of strictly-before-`d` input rows (given distinct kickoffs). -/
theorem preOf_eq_of_filter_perm {df₁ df₂ : List MatchRow} {d : Date}
    (hdd₁ : distinctDates df₁)
    (hpre : List.Perm (df₁.filter (fun r => ltDateB r.match_date (some d)))
        (df₂.filter (fun r => ltDateB r.match_date (some d)))) :
    preOf df₁ d = preOf df₂ d := by
  have hperm : List.Perm (preOf df₁ d) (preOf df₂ d) :=
    ((preOf_perm df₁ d).trans hpre).trans (preOf_perm df₂ d).symm
  have hall : ∀ x ∈ preOf df₁ d, (x.match_date).isSome := by
    intro x hx
    have hx' : x ∈ (sortedRows df₁).filter
        (fun r => ltDateB r.match_date (some d)) := hx
    have hlt := (List.mem_filter.1 hx').2
    exact ltDateB_isSome hlt
  exact eq_of_perm_of_sorted_of_nodup_keys MatchRow.match_date odLe
    (fun _ _ h1 h2 => odLe_antisymm h1 h2) hperm
    (preOf_sorted df₁ d) (preOf_sorted df₂ d)
    (map_date_nodup_of_all_some hall (preOf_distinct d hdd₁))

/-- Central no-look-ahead lemma: in two runs whose tables have pairwise
distinct parseable kickoffs, agree (as multisets) on the rows strictly
before `d`, and put the same two teams on the date-`d` row, the output
entries at date `d` carry identical feature columns — whatever the scores,
result, or later/unparseable rows are. -/
theorem featPack_agree (df₁ df₂ : List MatchRow) (d : Date)
    (hdd₁ : distinctDates df₁) (hdd₂ : distinctDates df₂)
    (hpre : List.Perm (df₁.filter (fun r => ltDateB r.match_date (some d)))
        (df₂.filter (fun r => ltDateB r.match_date (some d))))
    (hteams : ∀ r₁ ∈ df₁, ∀ r₂ ∈ df₂, r₁.match_date = some d →
        r₂.match_date = some d →
        r₁.home_team = r₂.home_team ∧ r₁.guest_team = r₂.guest_team)
    {e₁ e₂ : OutRow} (he₁ : e₁ ∈ process df₁) (he₂ : e₂ ∈ process df₂)
    (hd₁ : (outBase e₁).match_date = some d)
    (hd₂ : (outBase e₂).match_date = some d) :
    featPack e₁ = featPack e₂ := by
  obtain ⟨hm₁, hf₁⟩ := process_entry_eq df₁ d hdd₁ he₁ hd₁
  obtain ⟨hm₂, hf₂⟩ := process_entry_eq df₂ d hdd₂ he₂ hd₂
  obtain ⟨hh, hg⟩ := hteams _ hm₁ _ hm₂ hd₁ hd₂
  have hpre_eq : preOf df₁ d = preOf df₂ d := preOf_eq_of_filter_perm hdd₁ hpre
  have hdates : (outBase e₁).match_date = (outBase e₂).match_date := by
    rw [hd₁, hd₂]
  rw [hf₁, hf₂]
  unfold entryFeats
  refine congrArg₂ Prod.mk ?_ (congrArg₂ Prod.mk ?_ ?_)
  · unfold recentFor
    rw [hh, hg, hdates, hd₂]
    rw [calc_eq_of_filter_eq hpre_eq _ 5, calc_eq_of_filter_eq hpre_eq _ 5]
  · rw [hpre_eq, posStep_fst_congr _ hh hg hdates]
  · rw [hpre_eq, perfStep_fst_congr _ hh hg hdates]

/-!  Rolling-form facts: empty windows, counter totals, `NaT` handling.  -/

/-- All-zero output of `_calculate_team_stats_last_n` (the "no prior match"
guarantee): zero counters, zero goal sums, zero difference. -/
def zeroRecentStats : RecentStats :=
  { wins := 0, draws := 0, loses := 0,
    goals_scored := some 0, goals_conceded := some 0, goal_difference := some 0 }

theorem calc_of_filter_nil {df : List MatchRow} {team : String}
    {md : Option Date} {n : Nat}
    (h : df.filter (fun r => playsB team r && ltDateB r.match_date md) = []) :
    calculate_team_stats_last_n df team md n = zeroRecentStats := by
  unfold calculate_team_stats_last_n recentWindow
  rw [h]
  rw [show List.insertionSort rowGe ([] : List MatchRow) = [] from rfl]
  rw [List.take_nil]
  rfl

theorem ltDateB_none_right (a : Option Date) : ltDateB a none = false := by
  cases a <;> rfl

theorem ltDateB_none_left (b : Option Date) : ltDateB none b = false := by
  cases b <;> rfl

/-- A row with unparseable date is a window member of no query, and a query
anchored at an unparseable date selects nothing. -/
theorem calc_at_none (df : List MatchRow) (team : String) (n : Nat) :
    calculate_team_stats_last_n df team none n = zeroRecentStats := by
  apply calc_of_filter_nil
  rw [List.filter_eq_nil_iff]
  intro r _
  rw [ltDateB_none_right]
  simp

theorem mem_recentWindow_isSome {df : List MatchRow} {team : String}
    {md : Option Date} {n : Nat} {r : MatchRow}
    (h : r ∈ recentWindow df team md n) : (r.match_date).isSome := by
  unfold recentWindow at h
  have h1 := List.take_subset _ _ h
  have h2 := (List.mem_insertionSort rowGe).1 h1
  have h3 := (List.mem_filter.1 h2).2
  have h4 : ltDateB r.match_date md = true := by
    have := Bool.and_elim_right h3
    exact this
  exact ltDateB_isSome h4

/-- Each window row bumps exactly one of the three result counters. -/
theorem recentStep_counter_sum (team : String) (s : RecentStats)
    (r : MatchRow) :
    (recentStep team s r).wins + (recentStep team s r).draws
        + (recentStep team s r).loses
      = s.wins + s.draws + s.loses + 1 := by
  unfold recentStep
  by_cases h1 : r.winning_team = some "draw"
  · simp [h1]; omega
  · by_cases h2 : (r.winning_team = some "home" && (r.home_team == team))
        || (r.winning_team = some "guest" && !(r.home_team == team))
    · simp [h1, h2]; omega
    · simp [h1, h2]; omega

theorem foldl_recentStep_counter_sum (team : String) :
    ∀ (l : List MatchRow) (s : RecentStats),
      (l.foldl (recentStep team) s).wins + (l.foldl (recentStep team) s).draws
          + (l.foldl (recentStep team) s).loses
        = s.wins + s.draws + s.loses + l.length := by
  intro l
  induction l with
  | nil => intro s; simp
  | cons r t ih =>
      intro s
      rw [List.foldl_cons, ih, recentStep_counter_sum]
      simp only [List.length_cons]
      omega

/-- The counters of `_calculate_team_stats_last_n` total exactly the window
size: `min n` (number of prior matches of the team, completed or not). -/
theorem calc_counter_sum (df : List MatchRow) (team : String)
    (md : Option Date) (n : Nat) :
    (calculate_team_stats_last_n df team md n).wins
        + (calculate_team_stats_last_n df team md n).draws
        + (calculate_team_stats_last_n df team md n).loses
      = min n
          (df.filter (fun r => playsB team r && ltDateB r.match_date md)).length := by
  have h := foldl_recentStep_counter_sum team (recentWindow df team md n)
    initRecentStats
  have hlen : (recentWindow df team md n).length
      = min n
          (df.filter (fun r => playsB team r && ltDateB r.match_date md)).length := by
    unfold recentWindow
    rw [List.length_take, List.length_insertionSort]
  have hw : (calculate_team_stats_last_n df team md n).wins
      = ((recentWindow df team md n).foldl (recentStep team)
          initRecentStats).wins := rfl
  have hd : (calculate_team_stats_last_n df team md n).draws
      = ((recentWindow df team md n).foldl (recentStep team)
          initRecentStats).draws := rfl
  have hl : (calculate_team_stats_last_n df team md n).loses
      = ((recentWindow df team md n).foldl (recentStep team)
          initRecentStats).loses := rfl
  rw [hw, hd, hl]
  rw [hlen] at h
  simp only [initRecentStats] at h ⊢
  omega

/-!  Standings-dict lookup lemmas.  -/

/-- `standings[team]`, with the zero entry for a team not yet present (the
value `get_or_create` would install). -/
def standingOf (st : StandingsState) (team : String) : Standing :=
  match st.find? (fun e => e.1 == team) with
  | some e => e.2
  | none => ⟨0, 0, 0⟩

/-- The entry update `bumpTeam` applies pointwise. -/
def bumpEntry (t : String) (gf ga pts : Int) (e : String × Standing) :
    String × Standing :=
  if e.1 == t then
    (e.1, { points := e.2.points + pts,
            goals_scored := e.2.goals_scored + gf,
            goals_conceded := e.2.goals_conceded + ga })
  else e

theorem bumpTeam_eq_map (st : StandingsState) (t : String) (gf ga pts : Int) :
    bumpTeam st t gf ga pts = st.map (bumpEntry t gf ga pts) := rfl

theorem bumpEntry_fst (t : String) (gf ga pts : Int) (e : String × Standing) :
    (bumpEntry t gf ga pts e).1 = e.1 := by
  unfold bumpEntry
  by_cases h : e.1 == t <;> simp [h]

theorem find?_bumpTeam (st : StandingsState) (t u : String) (gf ga pts : Int) :
    (bumpTeam st t gf ga pts).find? (fun e => e.1 == u)
      = (st.find? (fun e => e.1 == u)).map (bumpEntry t gf ga pts) := by
  rw [bumpTeam_eq_map]
  induction st with
  | nil => rfl
  | cons e tl ih =>
      rw [List.map_cons]
      by_cases hc : e.1 == u
      · rw [List.find?_cons_of_pos, List.find?_cons_of_pos]
        · rfl
        · exact hc
        · rw [bumpEntry_fst]; exact hc
      · rw [List.find?_cons_of_neg, List.find?_cons_of_neg]
        · exact ih
        · exact hc
        · rw [bumpEntry_fst]; simpa using hc

theorem find?_append_none {p : (String × Standing) → Bool}
    {l₁ : List (String × Standing)} (l₂ : List (String × Standing))
    (h : l₁.find? p = none) :
    (l₁ ++ l₂).find? p = l₂.find? p := by
  induction l₁ with
  | nil => rfl
  | cons e tl ih =>
      rw [List.find?_cons] at h
      rw [List.cons_append, List.find?_cons]
      cases hc : p e with
      | true => rw [hc] at h; exact absurd h (by simp)
      | false => rw [hc] at h; exact ih h

theorem not_any_find?_none {st : StandingsState} {t : String}
    (h : ¬ st.any (fun e => e.1 == t)) :
    st.find? (fun e => e.1 == t) = none := by
  rw [List.find?_eq_none]
  intro e he
  intro hc
  exact h (List.any_eq_true.2 ⟨e, he, hc⟩)

theorem standingOf_getOrInit_self (st : StandingsState) (t : String) :
    ∃ e, (getOrInit st t).find? (fun x => x.1 == t) = some e
      ∧ e.1 = t ∧ e.2 = standingOf st t := by
  unfold getOrInit
  by_cases h : st.any (fun e => e.1 == t)
  · rw [if_pos h]
    obtain ⟨e, he, hc⟩ := List.any_eq_true.1 h
    have hsome : (st.find? (fun x => x.1 == t)).isSome :=
      List.find?_isSome.2 ⟨e, he, hc⟩
    obtain ⟨e', he'⟩ := Option.isSome_iff_exists.1 hsome
    refine ⟨e', he', ?_, ?_⟩
    · have hp := List.find?_some he'
      exact eq_of_beq hp
    · unfold standingOf
      rw [he']
  · rw [if_neg h]
    refine ⟨(t, ⟨0, 0, 0⟩), ?_, rfl, ?_⟩
    · rw [find?_append_none _ (not_any_find?_none h)]
      simp
    · unfold standingOf
      rw [not_any_find?_none h]

theorem find?_getOrInit_ne (st : StandingsState) {t u : String} (hne : u ≠ t) :
    (getOrInit st t).find? (fun x => x.1 == u)
      = st.find? (fun x => x.1 == u) := by
  unfold getOrInit
  by_cases h : st.any (fun e => e.1 == t)
  · rw [if_pos h]
  · rw [if_neg h]
    cases hf : st.find? (fun x => x.1 == u) with
    | some e => rw [List.find?_append, hf]; rfl
    | none =>
        rw [find?_append_none _ hf]
        have : ((t, (⟨0, 0, 0⟩ : Standing)).1 == u) = false := by
          simp only [beq_eq_false_iff_ne]
          exact fun hc => hne hc.symm
        rw [List.find?_cons_of_neg _ (by simp [this]), List.find?_nil]

theorem standingOf_getOrInit_ne (st : StandingsState) {t u : String}
    (hne : u ≠ t) : standingOf (getOrInit st t) u = standingOf st u := by
  unfold standingOf
  rw [find?_getOrInit_ne st hne]

theorem standingOf_bumpTeam_ne (st : StandingsState) {t u : String}
    (hne : u ≠ t) (gf ga pts : Int) :
    standingOf (bumpTeam st t gf ga pts) u = standingOf st u := by
  unfold standingOf
  rw [find?_bumpTeam]
  cases hf : st.find? (fun e => e.1 == u) with
  | none => rfl
  | some e =>
      have hp := List.find?_some hf
      have he : e.1 = u := eq_of_beq hp
      have hne2 : (e.1 == t) = false := by
        rw [he]
        simp only [beq_eq_false_iff_ne, ne_eq]
        exact hne
      simp [bumpEntry, hne2]

theorem standingOf_bumpTeam_found {st : StandingsState} {t : String}
    {e : String × Standing} (hf : st.find? (fun x => x.1 == t) = some e)
    (gf ga pts : Int) :
    standingOf (bumpTeam st t gf ga pts) t
      = { points := e.2.points + pts,
          goals_scored := e.2.goals_scored + gf,
          goals_conceded := e.2.goals_conceded + ga } := by
  have hp := List.find?_some hf
  unfold standingOf
  rw [find?_bumpTeam, hf]
  simp [bumpEntry, hp]

/-- One side of the `_update_standings` loop body, named for reuse. -/
def updSide (home_team guest_team : String) (result : Option String)
    (st : StandingsState) (team : String) (gf ga : Int) : StandingsState :=
  bumpTeam (getOrInit st team) team gf ga
    (if result = some "draw" then 1
     else if (result = some "home" && team == home_team)
         || (result = some "guest" && team == guest_team) then 3
     else 0)

theorem update_standings_eq_updSide (st : StandingsState)
    (home_team guest_team : String) (home_goals guest_goals : Int)
    (result : Option String) :
    update_standings st home_team guest_team home_goals guest_goals result
      = updSide home_team guest_team result
          (updSide home_team guest_team result st home_team home_goals
            guest_goals)
          guest_team guest_goals home_goals := rfl

theorem standingOf_updSide_ne (home_team guest_team : String)
    (result : Option String) (st : StandingsState) {team u : String}
    (hne : u ≠ team) (gf ga : Int) :
    standingOf (updSide home_team guest_team result st team gf ga) u
      = standingOf st u := by
  unfold updSide
  rw [standingOf_bumpTeam_ne _ hne, standingOf_getOrInit_ne _ hne]

theorem standingOf_updSide_self (home_team guest_team : String)
    (result : Option String) (st : StandingsState) (team : String)
    (gf ga : Int) :
    standingOf (updSide home_team guest_team result st team gf ga) team
      = { points := (standingOf st team).points
            + (if result = some "draw" then 1
               else if (result = some "home" && team == home_team)
                   || (result = some "guest" && team == guest_team) then 3
               else 0),
          goals_scored := (standingOf st team).goals_scored + gf,
          goals_conceded := (standingOf st team).goals_conceded + ga } := by
  unfold updSide
  obtain ⟨e, hf, _he1, he2⟩ := standingOf_getOrInit_self st team
  rw [standingOf_bumpTeam_found hf]
  rw [he2]

/-- The two deltas `_update_standings` applies (`home ≠ guest`): each side's
goals are added unconditionally, the points delta is 1 for a draw, 3 for the
side named by `result`, otherwise 0. -/
theorem update_standings_spec (st : StandingsState) (home guest : String)
    (hg gg : Int) (res : Option String) (hne : home ≠ guest) :
    standingOf (update_standings st home guest hg gg res) home
      = { points := (standingOf st home).points
            + (if res = some "draw" then 1
               else if res = some "home" then 3 else 0),
          goals_scored := (standingOf st home).goals_scored + hg,
          goals_conceded := (standingOf st home).goals_conceded + gg }
    ∧ standingOf (update_standings st home guest hg gg res) guest
      = { points := (standingOf st guest).points
            + (if res = some "draw" then 1
               else if res = some "guest" then 3 else 0),
          goals_scored := (standingOf st guest).goals_scored + gg,
          goals_conceded := (standingOf st guest).goals_conceded + hg } := by
  have hhg : (home == guest) = false := by
    simp only [beq_eq_false_iff_ne, ne_eq]; exact hne
  have hgh : (guest == home) = false := by
    simp only [beq_eq_false_iff_ne, ne_eq]; exact fun hc => hne hc.symm
  rw [update_standings_eq_updSide]
  constructor
  · rw [standingOf_updSide_ne _ _ _ _ hne, standingOf_updSide_self]
    simp only [beq_self_eq_true, Bool.and_true, hhg, Bool.and_false,
      Bool.or_false, decide_eq_true_eq]
  · rw [standingOf_updSide_self,
      standingOf_updSide_ne _ _ _ _ (fun hc => hne hc.symm)]
    simp only [beq_self_eq_true, Bool.and_true, hgh, Bool.and_false,
      Bool.false_or, Bool.or_false, decide_eq_true_eq]

/-!  Key-set lemmas and ranking-table facts.  -/

theorem bumpTeam_keys (st : StandingsState) (t : String) (gf ga pts : Int) :
    (bumpTeam st t gf ga pts).map Prod.fst = st.map Prod.fst := by
  rw [bumpTeam_eq_map, List.map_map]
  apply List.map_congr_left
  intro e _
  exact bumpEntry_fst t gf ga pts e

theorem getOrInit_keys {st : StandingsState} {t u : String}
    (h : u ∈ (getOrInit st t).map Prod.fst) :
    u ∈ st.map Prod.fst ∨ u = t := by
  unfold getOrInit at h
  by_cases hc : st.any (fun e => e.1 == t)
  · rw [if_pos hc] at h
    exact Or.inl h
  · rw [if_neg hc, List.map_append] at h
    rcases List.mem_append.1 h with h1 | h1
    · exact Or.inl h1
    · right
      simpa using h1

theorem update_standings_keys {st : StandingsState} {home guest u : String}
    {hg gg : Int} {res : Option String}
    (h : u ∈ (update_standings st home guest hg gg res).map Prod.fst) :
    u ∈ st.map Prod.fst ∨ u = home ∨ u = guest := by
  rw [update_standings_eq_updSide] at h
  unfold updSide at h
  rw [bumpTeam_keys] at h
  rcases getOrInit_keys h with h1 | h1
  · rw [bumpTeam_keys] at h1
    rcases getOrInit_keys h1 with h2 | h2
    · exact Or.inl h2
    · exact Or.inr (Or.inl h2)
  · exact Or.inr (Or.inr h1)

theorem commitIfComplete_keys {st : StandingsState} {r : MatchRow} {u : String}
    (h : u ∈ (commitIfComplete st r).map Prod.fst) :
    u ∈ st.map Prod.fst ∨ u = r.home_team ∨ u = r.guest_team := by
  unfold commitIfComplete at h
  cases hh : r.score_home_team with
  | none => rw [hh] at h; cases r.score_guest_team <;> exact Or.inl h
  | some hg =>
      cases hgg : r.score_guest_team with
      | none => rw [hh, hgg] at h; exact Or.inl h
      | some gg =>
          rw [hh, hgg] at h
          exact update_standings_keys h

/-- The team column of the transient `table`, in table order. -/
theorem standingsTable_teams (st : StandingsState) :
    (standingsTable st).map TableRow.team
      = (st.insertionSort standGe).map Prod.fst := by
  unfold standingsTable
  rw [List.map_map]
  have h : (TableRow.team ∘ fun p : Nat × (String × Standing) =>
      ({ team := p.2.1, points := p.2.2.points,
         goals_scored := p.2.2.goals_scored,
         goals_conceded := p.2.2.goals_conceded,
         goal_difference := p.2.2.goals_scored - p.2.2.goals_conceded,
         position := (p.1 : Int) + 1 } : TableRow))
      = (Prod.fst ∘ Prod.snd) := rfl
  rw [h, ← List.map_map, List.enum_map_snd]

/-- A team absent from the standings dict has no table row: its columns keep
their initialised values (`None` position, zero goals). -/
theorem sideFeats_not_mem {st : StandingsState} {team : String}
    (h : team ∉ st.map Prod.fst) :
    sideFeats (standingsTable st) team
      = ⟨none, 0, 0, 0⟩ := by
  unfold sideFeats
  have hfind : (standingsTable st).find? (fun r => r.team == team) = none := by
    rw [List.find?_eq_none]
    intro x hx hc
    have hteam : x.team = team := eq_of_beq hc
    have hx2 : x.team ∈ (standingsTable st).map TableRow.team :=
      List.mem_map_of_mem TableRow.team hx
    rw [standingsTable_teams] at hx2
    have hperm : List.Perm (st.insertionSort standGe) st :=
      List.perm_insertionSort _ st
    have hx3 : x.team ∈ st.map Prod.fst := (hperm.map Prod.fst).subset hx2
    rw [hteam] at hx3
    exact h hx3
  rw [hfind]

theorem standingsTable_length (st : StandingsState) :
    (standingsTable st).length = st.length := by
  unfold standingsTable
  rw [List.length_map, List.enum_length, List.length_insertionSort]

theorem standingsTable_positions (st : StandingsState) :
    (standingsTable st).map TableRow.position
      = (List.range st.length).map (fun i : Nat => (i : Int) + 1) := by
  unfold standingsTable
  rw [List.map_map]
  have h : (TableRow.position ∘ fun p : Nat × (String × Standing) =>
      ({ team := p.2.1, points := p.2.2.points,
         goals_scored := p.2.2.goals_scored,
         goals_conceded := p.2.2.goals_conceded,
         goal_difference := p.2.2.goals_scored - p.2.2.goals_conceded,
         position := (p.1 : Int) + 1 } : TableRow))
      = (fun i : Nat => (i : Int) + 1) ∘ Prod.fst := rfl
  rw [h, ← List.map_map, List.enum_map_fst, List.length_insertionSort]

/-- The (descending) three-level order of the ranking sort, read off the
table rows. -/
def tableGe (a b : TableRow) : Prop :=
  b.points < a.points
  ∨ (b.points = a.points
     ∧ (b.goal_difference < a.goal_difference
        ∨ (b.goal_difference = a.goal_difference
           ∧ b.goals_scored ≤ a.goals_scored)))

theorem snd_mem_enumFrom {α : Type} :
    ∀ {n : Nat} {l : List α} {q : Nat × α}, q ∈ l.enumFrom n → q.2 ∈ l := by
  intro n l
  induction l generalizing n with
  | nil => intro q hq; exact absurd hq (by simp)
  | cons a t ih =>
      intro q hq
      rcases List.mem_cons.1 hq with he | ht
      · rw [he]; exact List.mem_cons_self a t
      · exact List.mem_cons_of_mem a (ih ht)

theorem pairwise_enumFrom {α : Type} {R : α → α → Prop} :
    ∀ (n : Nat) {l : List α}, l.Pairwise R →
      (l.enumFrom n).Pairwise (fun p q => R p.2 q.2) := by
  intro n l
  induction l generalizing n with
  | nil => intro _; simp
  | cons a t ih =>
      intro hp
      rw [List.enumFrom_cons]
      refine List.Pairwise.cons ?_ (ih (n + 1) hp.of_cons)
      intro q hq
      exact (List.rel_of_pairwise_cons hp) (snd_mem_enumFrom hq)

theorem standingsTable_sorted (st : StandingsState) :
    (standingsTable st).Pairwise tableGe := by
  unfold standingsTable
  refine List.Pairwise.map _ (fun p q h => h) ?_
  exact pairwise_enumFrom 0 (List.sorted_insertionSort standGe st)

/-!  `team_stats` dict lemmas and the two season-freshness invariants.  -/

theorem perfBump_keys (ts : PerfDict) (t : String)
    (f : TeamRecord → TeamRecord) :
    (perfBump ts t f).map Prod.fst = ts.map Prod.fst := by
  unfold perfBump
  rw [List.map_map]
  apply List.map_congr_left
  intro e _
  by_cases h : e.1 = t <;> simp [h]

theorem perfCommit_keys (ts : PerfDict) (home guest : String)
    (res : Option String) :
    (perfCommit ts home guest res).map Prod.fst = ts.map Prod.fst := by
  unfold perfCommit
  cases res with
  | none => rfl
  | some r =>
      by_cases h1 : r = "home"
      · simp [h1, perfBump_keys]
      · by_cases h2 : r = "guest"
        · simp [h1, h2, perfBump_keys]
        · by_cases h3 : r = "draw" <;> simp [h1, h2, h3, perfBump_keys]

theorem perfInit_keys {ts : PerfDict} {t u : String}
    (h : u ∈ (perfInit ts t).map Prod.fst) :
    u ∈ ts.map Prod.fst ∨ u = t := by
  unfold perfInit at h
  by_cases hc : ts.any (fun e => e.1 == t)
  · rw [if_pos hc] at h
    exact Or.inl h
  · rw [if_neg hc, List.map_append] at h
    rcases List.mem_append.1 h with h1 | h1
    · exact Or.inl h1
    · right; simpa using h1

theorem find?_perf_append_none {p : (String × TeamRecord) → Bool}
    {l₁ : List (String × TeamRecord)} (l₂ : List (String × TeamRecord))
    (h : l₁.find? p = none) :
    (l₁ ++ l₂).find? p = l₂.find? p := by
  induction l₁ with
  | nil => rfl
  | cons e tl ih =>
      rw [List.find?_cons] at h
      rw [List.cons_append, List.find?_cons]
      cases hc : p e with
      | true => rw [hc] at h; exact absurd h (by simp)
      | false => rw [hc] at h; exact ih h

theorem perf_not_mem_find?_none {ts : PerfDict} {t : String}
    (h : t ∉ ts.map Prod.fst) :
    ts.find? (fun e => e.1 == t) = none := by
  rw [List.find?_eq_none]
  intro e he hc
  exact h ((eq_of_beq hc) ▸ List.mem_map_of_mem Prod.fst he)

theorem perfGet_perfInit_self_fresh {ts : PerfDict} {t : String}
    (h : t ∉ ts.map Prod.fst) :
    perfGet (perfInit ts t) t = ⟨0, 0, 0⟩ := by
  have hany : ¬ ts.any (fun e => e.1 == t) := by
    intro hc
    obtain ⟨e, he, hb⟩ := List.any_eq_true.1 hc
    exact h ((eq_of_beq hb) ▸ List.mem_map_of_mem Prod.fst he)
  unfold perfInit perfGet
  rw [if_neg hany, find?_perf_append_none _ (perf_not_mem_find?_none h)]
  simp

theorem perfGet_perfInit_ne (ts : PerfDict) {t u : String} (hne : u ≠ t) :
    perfGet (perfInit ts t) u = perfGet ts u := by
  unfold perfInit perfGet
  by_cases hc : ts.any (fun e => e.1 == t)
  · rw [if_pos hc]
  · rw [if_neg hc]
    cases hf : ts.find? (fun e => e.1 == u) with
    | some e => rw [List.find?_append, hf]; rfl
    | none =>
        rw [find?_perf_append_none _ hf]
        have hb : ((t, (⟨0, 0, 0⟩ : TeamRecord)).1 == u) = false := by
          simp only [beq_eq_false_iff_ne]
          exact fun hc2 => hne hc2.symm
        rw [List.find?_cons_of_neg _ (by simp [hb]), List.find?_nil]

theorem perfInit_mem_self (ts : PerfDict) (t : String) :
    t ∈ (perfInit ts t).map Prod.fst := by
  unfold perfInit
  by_cases hc : ts.any (fun e => e.1 == t)
  · rw [if_pos hc]
    obtain ⟨e, he, hb⟩ := List.any_eq_true.1 hc
    exact (eq_of_beq hb) ▸ List.mem_map_of_mem Prod.fst he
  · rw [if_neg hc, List.map_append]
    simp

theorem perfInit_idem_mem {ts : PerfDict} {t : String}
    (h : t ∈ ts.map Prod.fst) : perfInit ts t = ts := by
  unfold perfInit
  rw [if_pos]
  obtain ⟨e, he, hfst⟩ := List.mem_map.1 h
  exact List.any_eq_true.2 ⟨e, he, by simp [hfst]⟩

/-- The pre-match read of `team_stats[team]` for either side of the row is
the zero record when the team is absent from the carried-over dict. -/
theorem perfGet_init_pair_fresh {ts : PerfDict} {home guest team : String}
    (hteam : team = home ∨ team = guest) (hmem : team ∉ ts.map Prod.fst) :
    perfGet (perfInit (perfInit ts home) guest) team = ⟨0, 0, 0⟩ := by
  by_cases hhg : guest = home
  · subst hhg
    rcases hteam with h | h <;> subst h
    all_goals
      rw [perfInit_idem_mem (perfInit_mem_self ts team)]
      exact perfGet_perfInit_self_fresh hmem
  · rcases hteam with h | h
    · subst h
      rw [perfGet_perfInit_ne _ (fun hc => hhg hc.symm)]
      exact perfGet_perfInit_self_fresh hmem
    · subst h
      apply perfGet_perfInit_self_fresh
      intro hc
      rcases perfInit_keys hc with h1 | h1
      · exact hmem h1
      · exact hhg h1

theorem not_needsReset_iff {y : Option Int} {cur : Option (Option Int)} :
    needsReset y cur = false ↔ ∃ v : Int, y = some v ∧ cur = some (some v) := by
  cases cur with
  | none => simp [needsReset]
  | some c =>
      cases y with
      | none => simp [needsReset, pyNe]
      | some v =>
          cases c with
          | none => simp [needsReset, pyNe]
          | some w =>
              simp only [needsReset, pyNe, bne_eq_false_iff_eq,
                Option.some.injEq]
              constructor
              · intro h; exact ⟨v, rfl, by rw [h]⟩
              · intro ⟨u, hu, hw⟩
                cases hu
                exact hw.symm

theorem posStep_snd (st : PosState) (r : MatchRow) :
    (posStep st r).2
      = ⟨commitIfComplete
            (if needsReset (yearOf r) st.current_year then []
             else st.standings) r,
          some (yearOf r)⟩ := rfl

theorem posFold_append_single (l : List MatchRow) (r : MatchRow) :
    posFold id initPosState (l ++ [r])
      = (posStep (posFold id initPosState l) r).2 := by
  unfold posFold
  rw [List.foldl_append]
  rfl

/-- A team appears in the standings dict only if some already-replayed row of
the same (current) season involves it. -/
theorem posFold_keys_spec :
    ∀ (l : List MatchRow) {u : String},
      u ∈ ((posFold id initPosState l).standings).map Prod.fst →
      ∃ r ∈ l, (r.home_team = u ∨ r.guest_team = u)
        ∧ some (yearOf r) = (posFold id initPosState l).current_year := by
  intro l
  induction l using List.reverseRecOn with
  | nil =>
      intro u hu
      exact absurd hu (by simp [posFold, initPosState])
  | append_singleton l r ih =>
      intro u hu
      rw [posFold_append_single, posStep_snd] at hu ⊢
      dsimp only at hu ⊢
      rcases commitIfComplete_keys hu with h0 | h0 | h0
      · by_cases hres :
            needsReset (yearOf r) (posFold id initPosState l).current_year
        · rw [if_pos hres] at h0
          exact absurd h0 (by simp)
        · rw [if_neg hres] at h0
          obtain ⟨v, hv, hcur⟩ :=
            not_needsReset_iff.1 ((Bool.eq_false_iff).2 hres)
          obtain ⟨r', hr', hteam, hyear⟩ := ih h0
          refine ⟨r', List.mem_append_left _ hr', hteam, ?_⟩
          rw [hcur] at hyear
          rw [Option.some.inj hyear, hv]
      · exact ⟨r, by simp, Or.inl h0.symm, rfl⟩
      · exact ⟨r, by simp, Or.inr h0.symm, rfl⟩

theorem perfStep_snd (st : PerfState) (r : MatchRow) :
    (perfStep st r).2
      = ⟨perfCommit
            (perfInit
              (perfInit
                (if needsReset (yearOf r) st.current_year then []
                 else st.team_stats) r.home_team) r.guest_team)
            r.home_team r.guest_team r.winning_team,
          some (yearOf r)⟩ := rfl

theorem perfFold_append_single (l : List MatchRow) (r : MatchRow) :
    perfFold id initPerfState (l ++ [r])
      = (perfStep (perfFold id initPerfState l) r).2 := by
  unfold perfFold
  rw [List.foldl_append]
  rfl

/-- A team appears in `team_stats` only if some already-replayed row of the
same (current) season involves it. -/
theorem perfFold_keys_spec :
    ∀ (l : List MatchRow) {u : String},
      u ∈ ((perfFold id initPerfState l).team_stats).map Prod.fst →
      ∃ r ∈ l, (r.home_team = u ∨ r.guest_team = u)
        ∧ some (yearOf r) = (perfFold id initPerfState l).current_year := by
  intro l
  induction l using List.reverseRecOn with
  | nil =>
      intro u hu
      exact absurd hu (by simp [perfFold, initPerfState])
  | append_singleton l r ih =>
      intro u hu
      rw [perfFold_append_single, perfStep_snd] at hu ⊢
      dsimp only at hu ⊢
      rw [perfCommit_keys] at hu
      rcases perfInit_keys hu with h1 | h1
      · rcases perfInit_keys h1 with h2 | h2
        · by_cases hres :
              needsReset (yearOf r) (perfFold id initPerfState l).current_year
          · rw [if_pos hres] at h2
            exact absurd h2 (by simp)
          · rw [if_neg hres] at h2
            obtain ⟨v, hv, hcur⟩ :=
              not_needsReset_iff.1 ((Bool.eq_false_iff).2 hres)
            obtain ⟨r', hr', hteam, hyear⟩ := ih h2
            refine ⟨r', List.mem_append_left _ hr', hteam, ?_⟩
            rw [hcur] at hyear
            rw [Option.some.inj hyear, hv]
        · exact ⟨r, by simp, Or.inl h2.symm, rfl⟩
      · exact ⟨r, by simp, Or.inr h1.symm, rfl⟩

/-- Before a team's first match of its season, it has no standings entry. -/
theorem posStep_read_fresh (l : List MatchRow) (r : MatchRow) {team : String}
    (hfresh : ∀ r' ∈ l, yearOf r' = yearOf r →
      r'.home_team ≠ team ∧ r'.guest_team ≠ team) :
    team ∉ ((if needsReset (yearOf r) (posFold id initPosState l).current_year
        then ([] : StandingsState)
        else (posFold id initPosState l).standings)).map Prod.fst := by
  by_cases hres :
      needsReset (yearOf r) (posFold id initPosState l).current_year
  · rw [if_pos hres]
    simp
  · rw [if_neg hres]
    intro hmem
    obtain ⟨r', hr', hteam, hyear⟩ := posFold_keys_spec l hmem
    obtain ⟨v, hv, hcur⟩ := not_needsReset_iff.1 ((Bool.eq_false_iff).2 hres)
    have hy : yearOf r' = yearOf r := by
      rw [hcur] at hyear
      rw [Option.some.inj hyear, hv]
    obtain ⟨hh, hg⟩ := hfresh r' hr' hy
    rcases hteam with h | h
    · exact hh h
    · exact hg h

/-- Before a team's first match of its season, it has no `team_stats`
entry. -/
theorem perfStep_read_fresh (l : List MatchRow) (r : MatchRow) {team : String}
    (hfresh : ∀ r' ∈ l, yearOf r' = yearOf r →
      r'.home_team ≠ team ∧ r'.guest_team ≠ team) :
    team ∉ ((if needsReset (yearOf r)
          (perfFold id initPerfState l).current_year
        then ([] : PerfDict)
        else (perfFold id initPerfState l).team_stats)).map Prod.fst := by
  by_cases hres :
      needsReset (yearOf r) (perfFold id initPerfState l).current_year
  · rw [if_pos hres]
    simp
  · rw [if_neg hres]
    intro hmem
    obtain ⟨r', hr', hteam, hyear⟩ := perfFold_keys_spec l hmem
    obtain ⟨v, hv, hcur⟩ := not_needsReset_iff.1 ((Bool.eq_false_iff).2 hres)
    have hy : yearOf r' = yearOf r := by
      rw [hcur] at hyear
      rw [Option.some.inj hyear, hv]
    obtain ⟨hh, hg⟩ := hfresh r' hr' hy
    rcases hteam with h | h
    · exact hh h
    · exact hg h

/-!  Season-debut facts shared by the reset and zero-match claims.  -/

/-- `posStep`'s committed-state-side and read-side, named. -/
theorem posStep_fst_eval (st : PosState) (r : MatchRow) :
    (posStep st r).1
      = ⟨yearOf r,
          sideFeats (standingsTable
            (if needsReset (yearOf r) st.current_year then []
             else st.standings)) r.home_team,
          sideFeats (standingsTable
            (if needsReset (yearOf r) st.current_year then []
             else st.standings)) r.guest_team⟩ := rfl

/-- The `team_stats` dict the pre-match read of `perfStep` consults. -/
def perfReadDict (st : PerfState) (r : MatchRow) : PerfDict :=
  perfInit (perfInit
    (if needsReset (yearOf r) st.current_year then []
     else st.team_stats) r.home_team) r.guest_team

theorem perfStep_fst_eval (st : PerfState) (r : MatchRow) :
    (perfStep st r).1
      = ⟨yearOf r,
          (perfGet (perfReadDict st r) r.home_team).wins,
          (perfGet (perfReadDict st r) r.home_team).draws,
          (perfGet (perfReadDict st r) r.home_team).losses,
          (perfGet (perfReadDict st r) r.guest_team).wins,
          (perfGet (perfReadDict st r) r.guest_team).draws,
          (perfGet (perfReadDict st r) r.guest_team).losses⟩ := rfl

/-- A team's season-debut row reads all-zero state: no standings row (hence
`None` position and zero cumulative goals) and a zero `team_stats` record,
whichever side the team occupies; and the row with these features is indeed
emitted by both season passes. -/
theorem season_debut {α : Type} (base : α → MatchRow) (df : List α)
    (pre : List α) (a : α) (suf : List α)
    (hsplit : sortByDate base df = pre ++ a :: suf)
    (team : String)
    (hfresh : ∀ x ∈ pre, yearOf (base x) = yearOf (base a) →
        (base x).home_team ≠ team ∧ (base x).guest_team ≠ team) :
    ((a, attachPosDiffs ((posStep (posFold base initPosState pre)
          (base a)).1))
        ∈ add_season_position_features base df)
    ∧ ((a, attachPerfTail ((perfStep (perfFold base initPerfState pre)
          (base a)).1))
        ∈ add_season_performance_features base df)
    ∧ (team = (base a).home_team →
        ((posStep (posFold base initPosState pre) (base a)).1).home
            = ⟨none, 0, 0, 0⟩
        ∧ ((perfStep (perfFold base initPerfState pre)
              (base a)).1).home_wins_so_far = 0
        ∧ ((perfStep (perfFold base initPerfState pre)
              (base a)).1).home_draws_so_far = 0
        ∧ ((perfStep (perfFold base initPerfState pre)
              (base a)).1).home_losses_so_far = 0)
    ∧ (team = (base a).guest_team →
        ((posStep (posFold base initPosState pre) (base a)).1).guest
            = ⟨none, 0, 0, 0⟩
        ∧ ((perfStep (perfFold base initPerfState pre)
              (base a)).1).guest_wins_so_far = 0
        ∧ ((perfStep (perfFold base initPerfState pre)
              (base a)).1).guest_draws_so_far = 0
        ∧ ((perfStep (perfFold base initPerfState pre)
              (base a)).1).guest_losses_so_far = 0) := by
  have hfresh' : ∀ r' ∈ pre.map base, yearOf r' = yearOf (base a) →
      r'.home_team ≠ team ∧ r'.guest_team ≠ team := by
    intro r' hr' hy
    obtain ⟨x, hx, hxe⟩ := List.mem_map.1 hr'
    exact hxe ▸ hfresh x hx (by rw [hxe]; exact hy)
  have hposmem : team ∉ ((if needsReset (yearOf (base a))
        (posFold base initPosState pre).current_year
      then ([] : StandingsState)
      else (posFold base initPosState pre).standings)).map Prod.fst := by
    rw [posFold_eq_map]
    exact posStep_read_fresh (pre.map base) (base a) hfresh'
  have hperfmem : team ∉ ((if needsReset (yearOf (base a))
        (perfFold base initPerfState pre).current_year
      then ([] : PerfDict)
      else (perfFold base initPerfState pre).team_stats)).map Prod.fst := by
    rw [perfFold_eq_map]
    exact perfStep_read_fresh (pre.map base) (base a) hfresh'
  refine ⟨?_, ?_, ?_, ?_⟩
  · unfold add_season_position_features
    rw [hsplit, posReplay_append, posReplay_cons, List.map_append,
      List.map_cons]
    exact List.mem_append_right _ (List.mem_cons_self _ _)
  · unfold add_season_performance_features
    rw [hsplit, perfReplay_append, perfReplay_cons, List.map_append,
      List.map_cons]
    exact List.mem_append_right _ (List.mem_cons_self _ _)
  · intro hteam
    have hzero : sideFeats (standingsTable
        (if needsReset (yearOf (base a))
            (posFold base initPosState pre).current_year then []
         else (posFold base initPosState pre).standings))
        (base a).home_team = ⟨none, 0, 0, 0⟩ := by
      apply sideFeats_not_mem
      rw [← hteam]
      exact hposmem
    have hperf0 : perfGet (perfReadDict (perfFold base initPerfState pre)
        (base a)) (base a).home_team = ⟨0, 0, 0⟩ := by
      unfold perfReadDict
      apply perfGet_init_pair_fresh (Or.inl rfl)
      rw [← hteam]
      exact hperfmem
    rw [posStep_fst_eval, perfStep_fst_eval]
    exact ⟨hzero, by rw [hperf0], by rw [hperf0], by rw [hperf0]⟩
  · intro hteam
    have hzero : sideFeats (standingsTable
        (if needsReset (yearOf (base a))
            (posFold base initPosState pre).current_year then []
         else (posFold base initPosState pre).standings))
        (base a).guest_team = ⟨none, 0, 0, 0⟩ := by
      apply sideFeats_not_mem
      rw [← hteam]
      exact hposmem
    have hperf0 : perfGet (perfReadDict (perfFold base initPerfState pre)
        (base a)) (base a).guest_team = ⟨0, 0, 0⟩ := by
      unfold perfReadDict
      apply perfGet_init_pair_fresh (Or.inr rfl)
      rw [← hteam]
      exact hperfmem
    rw [posStep_fst_eval, perfStep_fst_eval]
    exact ⟨hzero, by rw [hperf0], by rw [hperf0], by rw [hperf0]⟩

/-- `fillna(0.0)` over the masked rate: always a defined value. -/
theorem fillna0_rawPct (c t : Nat) :
    fillna0 (rawPct c t) = some (if 0 < t then (c : ℚ) / (t : ℚ) else 0) := by
  unfold fillna0 rawPct
  by_cases h : 0 < t <;> simp [h]

/-- In the sorted order, every missing-date row follows every dated row. -/
theorem sortByDate_none_last {α : Type} (base : α → MatchRow) (l : List α) :
    (sortByDate base l).Pairwise
      (fun a b => (base a).match_date = none → (base b).match_date = none) := by
  refine (sortByDate_sorted base l).imp ?_
  intro a b h hnone
  cases hb : (base b).match_date with
  | none => rfl
  | some db =>
      exfalso
      unfold rowLe at h
      rw [hnone, hb] at h
      simp only [odLe] at h

/-!  Concrete tables used in counterexamples and witnesses.  -/

/-- Six completed matches of team `A` before day 100, oldest to newest
W, W, D, L, W, W (wins 2-0, draw 1-1, loss 0-1, all with `A` at home). -/
def formDf : List MatchRow :=
  [⟨some ⟨2024, 1⟩, "A", "X", some 2, some 0, some "home", 0⟩,
   ⟨some ⟨2024, 2⟩, "A", "X", some 2, some 0, some "home", 0⟩,
   ⟨some ⟨2024, 3⟩, "A", "X", some 1, some 1, some "draw", 0⟩,
   ⟨some ⟨2024, 4⟩, "A", "X", some 0, some 1, some "guest", 0⟩,
   ⟨some ⟨2024, 5⟩, "A", "X", some 2, some 0, some "home", 0⟩,
   ⟨some ⟨2024, 6⟩, "A", "X", some 2, some 0, some "home", 0⟩]

/-- Five completed wins of team `A` (days 1-5) and one incomplete fixture of
`A` (day 6, no scores, no result), all before day 100. -/
def incompleteDf : List MatchRow :=
  [⟨some ⟨2024, 1⟩, "A", "X", some 2, some 0, some "home", 0⟩,
   ⟨some ⟨2024, 2⟩, "A", "X", some 2, some 0, some "home", 0⟩,
   ⟨some ⟨2024, 3⟩, "A", "X", some 2, some 0, some "home", 0⟩,
   ⟨some ⟨2024, 4⟩, "A", "X", some 2, some 0, some "home", 0⟩,
   ⟨some ⟨2024, 5⟩, "A", "X", some 2, some 0, some "home", 0⟩,
   ⟨some ⟨2024, 6⟩, "A", "X", none, none, none, 0⟩]

/-- Two matches with the same kickoff: `A`-`B` 2-0 and `A`-`C` 1-1. -/
def c1df1 : List MatchRow :=
  [⟨some ⟨2024, 10⟩, "A", "B", some 2, some 0, some "home", 0⟩,
   ⟨some ⟨2024, 10⟩, "A", "C", some 1, some 1, some "draw", 0⟩]

/-- Same table with only the first (equal-kickoff) match changed to 0-0. -/
def c1df2 : List MatchRow :=
  [⟨some ⟨2024, 10⟩, "A", "B", some 0, some 0, some "draw", 0⟩,
   ⟨some ⟨2024, 10⟩, "A", "C", some 1, some 1, some "draw", 0⟩]

/-- Run 1 for the amended no-look-ahead theorem: distinct kickoffs. -/
def c1w1 : List MatchRow :=
  [⟨some ⟨2024, 1⟩, "A", "B", some 1, some 0, some "home", 0⟩,
   ⟨some ⟨2024, 2⟩, "A", "C", some 2, some 0, some "home", 0⟩,
   ⟨some ⟨2024, 3⟩, "B", "C", some 0, some 3, some "guest", 0⟩]

/-- Run 2: the day-2 match's own scores/result wiped, the later match
changed, and an unparseable-date match added; day-1 history unchanged. -/
def c1w2 : List MatchRow :=
  [⟨some ⟨2024, 1⟩, "A", "B", some 1, some 0, some "home", 0⟩,
   ⟨some ⟨2024, 2⟩, "A", "C", none, none, none, 0⟩,
   ⟨some ⟨2024, 3⟩, "B", "C", some 5, some 0, some "home", 0⟩,
   ⟨none, "Z", "W", some 9, some 9, some "draw", 0⟩]

/-- A parseable-date match followed by a missing-date match with scores. -/
def c4df : List MatchRow :=
  [⟨some ⟨2024, 1⟩, "A", "B", some 1, some 0, some "home", 0⟩,
   ⟨none, "C", "D", some 2, some 1, some "home", 0⟩]

/-- A 2024 match of `A`-`B` followed by their first 2025 match. -/
def c7r1 : MatchRow := ⟨some ⟨2024, 5⟩, "A", "B", some 3, some 0, some "home", 0⟩

/-- The first 2025 match of `A` and `B`. -/
def c7r2 : MatchRow := ⟨some ⟨2025, 1⟩, "A", "B", some 1, some 1, some "draw", 0⟩

/-- The two-season table. -/
def c7df : List MatchRow := [c7r1, c7r2]

/-- An arbitrary output row, used only as the default of a safe lookup. -/
def defaultOutRow : OutRow :=
  ((((⟨none, "", "", none, none, none, 0⟩ : MatchRow),
     (⟨zeroRecentStats, zeroRecentStats⟩ : RecentFeats)),
    (⟨none, ⟨none, 0, 0, 0⟩, ⟨none, 0, 0, 0⟩, none, 0, 0⟩ : PosFeats)),
   (⟨none, 0, 0, 0, 0, 0, 0, some 0, some 0, some 0, some 0, some 0, some 0,
     0, 0, 0⟩ : PerfFeats))

/-!  The claims.  -/

/-- C9: none of the feature-engineering operations mutates the caller's
input table.  Each method's first statement is `df = df.copy()`
(lines 89, 159, 244); every subsequent in-place write (`df.at`, `df.loc`,
column assignment) targets that copy, so the caller's frame after the call
is exactly the input.  The `_effect` wrappers make this explicit: their
first component is the caller's table after the call. -/
def add_recent_performance_features_effect {α : Type} (base : α → MatchRow)
    (df : List α) : List α × List (α × RecentFeats) :=
  (df, add_recent_performance_features base df)

/-- Effect form of `add_season_position_features` (copy at line 159). -/
def add_season_position_features_effect {α : Type} (base : α → MatchRow)
    (df : List α) : List α × List (α × PosFeats) :=
  (df, add_season_position_features base df)

/-- Effect form of `add_season_performance_features` (copy at line 244). -/
def add_season_performance_features_effect {α : Type} (base : α → MatchRow)
    (df : List α) : List α × List (α × PerfFeats) :=
  (df, add_season_performance_features base df)

/-- Effect form of `process`. -/
def process_effect (df : List MatchRow) : List MatchRow × List OutRow :=
  (df, process df)

/-- C9: after any of the three feature passes, and after `process`, the
caller's input table holds exactly its original rows, columns and values:
each method copies the frame before writing (lines 87-89, 157-161,
242-246), so the caller-side component of every effect pair is the
unchanged input. -/
theorem C9_no_input_mutation {α : Type} (base : α → MatchRow) (df : List α)
    (dfm : List MatchRow) :
    (add_recent_performance_features_effect base df).1 = df
    ∧ (add_season_position_features_effect base df).1 = df
    ∧ (add_season_performance_features_effect base df).1 = df
    ∧ (process_effect dfm).1 = dfm :=
  ⟨rfl, rfl, rfl, rfl⟩

/-- C10: `process` emits exactly one output row per input row (none dropped
or added, including rows with unparseable dates or missing scores), the
output is ordered by `match_date` ascending (missing dates last), and the
base projection of every output row — all original columns, including the
opaque `extra` payload — is a permutation of the input table, alongside the
added feature columns carried in the `OutRow` type.  Validation
(`_validate_dataframe`) only checks column presence, which the `MatchRow`
schema guarantees, so every modelled table passes it. -/
theorem C10_row_preservation (df : List MatchRow) :
    (process df).length = df.length
    ∧ List.Perm ((process df).map outBase) df
    ∧ ((process df).map outBase).Sorted (rowLe id) := by
  have hperm : List.Perm ((process df).map outBase) df := by
    rw [process_map_outBase]
    exact sortByDate_perm id df
  refine ⟨?_, hperm, ?_⟩
  · have h1 : ((process df).map outBase).length = (process df).length :=
      List.length_map _ _
    rw [← h1]
    exact hperm.length_eq
  · rw [process_map_outBase]
    exact sortByDate_sorted id df

/-- C1 (counterexample): the claim fails when two matches share a kickoff.
In `c1df1`/`c1df2` only the first match changed, and its kickoff equals the
second match's kickoff (so it is a "match with kickoff >= m's kickoff"),
yet the second match's `home_team_goals_scored` feature changes from 2 to 0:
the replay commits the equal-kickoff match before featuring the second. -/
theorem C1_counterexample_same_kickoff_leak :
    ((process c1df1).map (fun e => e.1.2.home.goals_scored) = [0, 2])
    ∧ ((process c1df2).map (fun e => e.1.2.home.goals_scored) = [0, 0]) := by
  constructor <;> decide

/-- C1 (amended): no look-ahead holds for tables whose parseable kickoffs
are pairwise distinct.  For any two runs that agree (as multisets) on the
rows with kickoff strictly before `d` and put the same two teams on the
date-`d` row, the feature columns (rolling form, season position and
performance, and all difference columns) of the date-`d` output row are
identical — whatever the date-`d` match's own scores/result and whatever
the rows with kickoff ≥ `d` or unparseable kickoff are. -/
theorem C1_no_lookahead_distinct_kickoffs (df₁ df₂ : List MatchRow) (d : Date)
    (hdd₁ : distinctDates df₁) (hdd₂ : distinctDates df₂)
    (hpre : List.Perm (df₁.filter (fun r => ltDateB r.match_date (some d)))
        (df₂.filter (fun r => ltDateB r.match_date (some d))))
    (hteams : ∀ r₁ ∈ df₁, ∀ r₂ ∈ df₂, r₁.match_date = some d →
        r₂.match_date = some d →
        r₁.home_team = r₂.home_team ∧ r₁.guest_team = r₂.guest_team)
    (e₁ e₂ : OutRow) (he₁ : e₁ ∈ process df₁) (he₂ : e₂ ∈ process df₂)
    (hd₁ : (outBase e₁).match_date = some d)
    (hd₂ : (outBase e₂).match_date = some d) :
    featPack e₁ = featPack e₂ :=
  featPack_agree df₁ df₂ d hdd₁ hdd₂ hpre hteams he₁ he₂ hd₁ hd₂

theorem getD_mem_of_lt {α : Type} (l : List α) (n : Nat) (d : α)
    (h : n < l.length) : l.getD n d ∈ l := by
  rw [List.getD_eq_getElem?_getD, List.getElem?_eq_getElem h]
  exact List.getElem_mem h

/-- C1 witness: the theorem applied to the concrete runs `c1w1`/`c1w2` —
the day-2 match loses its scores, the later match changes, and a
missing-date match appears, yet the day-2 row's features agree. -/
theorem C1_no_lookahead_distinct_kickoffs_witness :
    featPack ((process c1w1).getD 1 defaultOutRow)
      = featPack ((process c1w2).getD 1 defaultOutRow) :=
  C1_no_lookahead_distinct_kickoffs c1w1 c1w2 ⟨2024, 2⟩
    (by decide) (by decide) (by decide) (by decide)
    ((process c1w1).getD 1 defaultOutRow)
    ((process c1w2).getD 1 defaultOutRow)
    (getD_mem_of_lt _ 1 _ (by decide))
    (getD_mem_of_lt _ 1 _ (by decide))
    (by decide) (by decide)

/-- C2 (counterexample): an incomplete prior fixture does occupy a slot of
the last-5 window and does contribute to the counters.  Team `A` has five
completed wins and one more-recent incomplete fixture; the claim predicts
`wins = 5, loses = 0` (window over completed matches only), but the code
returns `wins = 4, loses = 1` — the incomplete fixture fills a slot, its
undefined result falls to the `else` branch and counts as a loss, and its
missing goals turn the goal sums into `NaN`. -/
theorem C2_counterexample_incomplete_occupies_slot :
    calculate_team_stats_last_n incompleteDf "A" (some ⟨2024, 100⟩) 5
      = ⟨4, 0, 1, none, none, none⟩ := by
  decide

/-- C2 (amended): the last-5 window is taken over all prior matches of the
team regardless of completion — every window slot is filled by any prior
match and bumps exactly one of wins/draws/loses, so the three counters
always total `min 5` (number of prior matches, completed or not).  When all
prior matches are completed the claimed scenario does hold: 6 prior
completed matches [W,W,D,L,W,W] (oldest to newest) yield
`wins_last_5 = 3, draws_last_5 = 1, loses_last_5 = 1`. -/
theorem C2_window_slots_and_form_scenario :
    (∀ (df : List MatchRow) (team : String) (md : Option Date),
      (calculate_team_stats_last_n df team md 5).wins
          + (calculate_team_stats_last_n df team md 5).draws
          + (calculate_team_stats_last_n df team md 5).loses
        = min 5
            (df.filter
              (fun r => playsB team r && ltDateB r.match_date md)).length)
    ∧ calculate_team_stats_last_n formDf "A" (some ⟨2024, 100⟩) 5
        = ⟨3, 1, 1, some 7, some 2, some 5⟩ :=
  ⟨fun df team md => calc_counter_sum df team md 5, by decide⟩

/-- C3: with no qualifying prior match the rolling-form calculation returns
the all-zero record (counters, goal sums and goal difference all zero) —
it is a total function, so no error is possible — and with fewer than 5
qualifying matches it aggregates over exactly the ones available (the
counters total the number of qualifying matches, no padding). -/
theorem C3_zero_stats_no_padding (df : List MatchRow) (team : String)
    (md : Option Date) :
    (df.filter (fun r => playsB team r && ltDateB r.match_date md) = [] →
      calculate_team_stats_last_n df team md 5 = zeroRecentStats)
    ∧ ((df.filter (fun r => playsB team r && ltDateB r.match_date md)).length
          ≤ 5 →
        (calculate_team_stats_last_n df team md 5).wins
            + (calculate_team_stats_last_n df team md 5).draws
            + (calculate_team_stats_last_n df team md 5).loses
          = (df.filter
              (fun r => playsB team r && ltDateB r.match_date md)).length) := by
  constructor
  · intro h
    exact calc_of_filter_nil h
  · intro h
    rw [calc_counter_sum df team md 5]
    omega

/-- C3 witness: the theorem applied to an empty history (all-zero output)
and to a three-match history (counters total 3, no padding to 5). -/
theorem C3_zero_stats_no_padding_witness :
    calculate_team_stats_last_n [] "A" (some ⟨2024, 1⟩) 5 = zeroRecentStats
    ∧ (calculate_team_stats_last_n (formDf.take 3) "A"
          (some ⟨2024, 100⟩) 5).wins
        + (calculate_team_stats_last_n (formDf.take 3) "A"
            (some ⟨2024, 100⟩) 5).draws
        + (calculate_team_stats_last_n (formDf.take 3) "A"
            (some ⟨2024, 100⟩) 5).loses
      = ((formDf.take 3).filter
          (fun r => playsB "A" r
            && ltDateB r.match_date (some ⟨2024, 100⟩))).length :=
  ⟨(C3_zero_stats_no_padding [] "A" (some ⟨2024, 1⟩)).1 (by decide),
   (C3_zero_stats_no_padding (formDf.take 3) "A" (some ⟨2024, 100⟩)).2
     (by decide)⟩

/-- C4 (counterexample): a match with missing kickoff and valid scores does
mutate the standings ledger — the guard of lines 216-219 checks only the
scores, not the date.  After processing `c4df`, the final standings dict
holds exactly the missing-date match's commit (`C` on 3 points with its
goals), refuting "its scores are never committed into any team's cumulative
points/goals"; the code also contains no counting or reporting of such
matches. -/
theorem C4_counterexample_commit_despite_missing_date :
    (posFinalState c4df).standings
      = [("C", ⟨3, 2, 1⟩), ("D", ⟨0, 1, 2⟩)] := by
  decide

/-- C4 (amended): a missing-date match still never influences any other
match's features and its own row receives best-effort (all-zero) rolling
features: (i) every rolling-form window member has a parseable date, so a
missing-date match is never a form source; (ii) a missing-date reference
row selects an empty window and gets the all-zero stats; (iii) the sort
places every missing-date row after every dated row, so its ledger commit
(which does happen — see the counterexample) is read by no dated row, and
each later missing-date row resets the season state before reading (its
`NaN` year differs from every value, itself included).  No counting or
reporting of such matches exists in the code. -/
theorem C4_missing_date_isolation :
    (∀ (df : List MatchRow) (team : String) (md : Option Date) (n : Nat),
      ∀ r ∈ recentWindow df team md n, (r.match_date).isSome)
    ∧ (∀ (df : List MatchRow) (team : String) (n : Nat),
        calculate_team_stats_last_n df team none n = zeroRecentStats)
    ∧ (∀ df : List MatchRow,
        (sortByDate id df).Pairwise
          (fun a b => a.match_date = none → b.match_date = none)) := by
  refine ⟨?_, ?_, ?_⟩
  · intro df team md n r hr
    exact mem_recentWindow_isSome hr
  · intro df team n
    exact calc_at_none df team n
  · intro df
    exact sortByDate_none_last id df

/-- C4 witness: the theorem applied at `c4df` — the dated match of the
window has a parseable date, and a missing-date reference returns the
all-zero stats. -/
theorem C4_missing_date_isolation_witness :
    (((⟨some ⟨2024, 1⟩, "A", "B", some 1, some 0, some "home", 0⟩ :
        MatchRow)).match_date).isSome
    ∧ calculate_team_stats_last_n c4df "C" none 5 = zeroRecentStats :=
  ⟨C4_missing_date_isolation.1 c4df "A" (some ⟨2024, 5⟩) 5 _ (by decide),
   C4_missing_date_isolation.2.1 c4df "C" 5⟩

/-- C5: the ledger commit guard (lines 216-227) applies `_update_standings`
iff both goal counts are present.  A missing goal on either side leaves the
standings state completely unchanged; with both present, each side's goals
are added and points are awarded per the result: 1 each on a draw, 3 to the
side named by the result (`home`/`guest`), 0 otherwise (distinct team
names assumed, as in any real fixture). -/
theorem C5_commit_iff_scores_present (st : StandingsState)
    (home guest : String) (d : Option Date) (hg gg : Int)
    (res : Option String) (extra : Int) (hne : home ≠ guest) :
    (∀ sh sg : Option Int, sh = none ∨ sg = none →
      commitIfComplete st ⟨d, home, guest, sh, sg, res, extra⟩ = st)
    ∧ commitIfComplete st ⟨d, home, guest, some hg, some gg, res, extra⟩
        = update_standings st home guest hg gg res
    ∧ standingOf
        (commitIfComplete st ⟨d, home, guest, some hg, some gg, res, extra⟩)
        home
      = { points := (standingOf st home).points
            + (if res = some "draw" then 1
               else if res = some "home" then 3 else 0),
          goals_scored := (standingOf st home).goals_scored + hg,
          goals_conceded := (standingOf st home).goals_conceded + gg }
    ∧ standingOf
        (commitIfComplete st ⟨d, home, guest, some hg, some gg, res, extra⟩)
        guest
      = { points := (standingOf st guest).points
            + (if res = some "draw" then 1
               else if res = some "guest" then 3 else 0),
          goals_scored := (standingOf st guest).goals_scored + gg,
          goals_conceded := (standingOf st guest).goals_conceded + hg } := by
  refine ⟨?_, rfl, ?_, ?_⟩
  · intro sh sg h
    rcases h with h | h
    · subst h
      cases sg <;> rfl
    · subst h
      cases sh <;> rfl
  · exact (update_standings_spec st home guest hg gg res hne).1
  · exact (update_standings_spec st home guest hg gg res hne).2

/-- C5 witness: the theorem at a concrete state — a missing score commits
nothing; a 2-1 home win gives the home side 3 points and both sides their
goals. -/
theorem C5_commit_iff_scores_present_witness :
    commitIfComplete []
        ⟨some ⟨2024, 1⟩, "H", "G", none, some 1, some "home", 0⟩ = []
    ∧ standingOf
        (commitIfComplete []
          ⟨some ⟨2024, 1⟩, "H", "G", some 2, some 1, some "home", 0⟩) "H"
      = ⟨3, 2, 1⟩
    ∧ standingOf
        (commitIfComplete []
          ⟨some ⟨2024, 1⟩, "H", "G", some 2, some 1, some "home", 0⟩) "G"
      = ⟨0, 1, 2⟩ :=
  ⟨(C5_commit_iff_scores_present [] "H" "G" (some ⟨2024, 1⟩) 2 1
      (some "home") 0 (by decide)).1 none (some 1) (Or.inl rfl),
   ((C5_commit_iff_scores_present [] "H" "G" (some ⟨2024, 1⟩) 2 1
      (some "home") 0 (by decide)).2.2.1).trans (by decide),
   ((C5_commit_iff_scores_present [] "H" "G" (some ⟨2024, 1⟩) 2 1
      (some "home") 0 (by decide)).2.2.2).trans (by decide)⟩

/-- C6: for every standings snapshot (of any reachable or unreachable
dict state with K entries) the computed table has exactly K rows, its
`position` column is literally `[1, 2, …, K]` — so ranks form the set
{1,…,K} with no gaps and, as the `Nodup` conjunct states, no duplicates,
even for teams tied on all three keys — and the rows are ordered by the
descending (points, goal_difference, goals_scored) key.  The ranking is a
pure function of the dict, so repeated runs on the same input produce the
same assignment. -/
theorem C6_rank_totality (st : StandingsState) :
    (standingsTable st).length = st.length
    ∧ (standingsTable st).map TableRow.position
        = (List.range st.length).map (fun i : Nat => (i : Int) + 1)
    ∧ ((standingsTable st).map TableRow.position).Nodup
    ∧ (standingsTable st).Pairwise tableGe := by
  refine ⟨standingsTable_length st, standingsTable_positions st, ?_,
    standingsTable_sorted st⟩
  rw [standingsTable_positions st]
  refine List.Nodup.map ?_ (List.nodup_range _)
  intro a b h
  dsimp only at h
  omega

/-- C7: per-season state isolation.  If, in the sorted replay order, no row
before `a` in `a`'s calendar year involves `team` (in particular whenever
`a` is the team's first match after a season boundary — rows of previous
years are unconstrained), then the emitted row for `a` carries all-zero
season state for that side: no standings entry (position `None`,
season-cumulative goals 0) and `wins_so_far = draws_so_far =
losses_so_far = 0`, regardless of anything accumulated in earlier seasons.
Both season passes emit exactly this row, as the membership conjuncts
state. -/
theorem C7_season_reset {α : Type} (base : α → MatchRow) (df : List α)
    (pre : List α) (a : α) (suf : List α)
    (hsplit : sortByDate base df = pre ++ a :: suf)
    (team : String)
    (hfresh : ∀ x ∈ pre, yearOf (base x) = yearOf (base a) →
        (base x).home_team ≠ team ∧ (base x).guest_team ≠ team) :
    ((a, attachPosDiffs ((posStep (posFold base initPosState pre)
          (base a)).1))
        ∈ add_season_position_features base df)
    ∧ ((a, attachPerfTail ((perfStep (perfFold base initPerfState pre)
          (base a)).1))
        ∈ add_season_performance_features base df)
    ∧ (team = (base a).home_team →
        ((posStep (posFold base initPosState pre) (base a)).1).home
            = ⟨none, 0, 0, 0⟩
        ∧ ((perfStep (perfFold base initPerfState pre)
              (base a)).1).home_wins_so_far = 0
        ∧ ((perfStep (perfFold base initPerfState pre)
              (base a)).1).home_draws_so_far = 0
        ∧ ((perfStep (perfFold base initPerfState pre)
              (base a)).1).home_losses_so_far = 0)
    ∧ (team = (base a).guest_team →
        ((posStep (posFold base initPosState pre) (base a)).1).guest
            = ⟨none, 0, 0, 0⟩
        ∧ ((perfStep (perfFold base initPerfState pre)
              (base a)).1).guest_wins_so_far = 0
        ∧ ((perfStep (perfFold base initPerfState pre)
              (base a)).1).guest_draws_so_far = 0
        ∧ ((perfStep (perfFold base initPerfState pre)
              (base a)).1).guest_losses_so_far = 0) :=
  season_debut base df pre a suf hsplit team hfresh

/-- C7 witness: the theorem at the two-season table `c7df` — team `A` has a
3-0 win in 2024, yet its first 2025 row reads position `None`, zero
cumulative goals and zero win/draw/loss counters. -/
theorem C7_season_reset_witness :
    ((c7r2, attachPosDiffs ((posStep (posFold id initPosState [c7r1])
          (id c7r2)).1))
        ∈ add_season_position_features id c7df)
    ∧ ((posStep (posFold id initPosState [c7r1]) (id c7r2)).1).home
        = ⟨none, 0, 0, 0⟩
    ∧ ((perfStep (perfFold id initPerfState [c7r1])
          (id c7r2)).1).home_wins_so_far = 0
    ∧ ((perfStep (perfFold id initPerfState [c7r1])
          (id c7r2)).1).home_draws_so_far = 0
    ∧ ((perfStep (perfFold id initPerfState [c7r1])
          (id c7r2)).1).home_losses_so_far = 0 := by
  have h := C7_season_reset id c7df [c7r1] c7r2 [] (by decide) "A" (by decide)
  obtain ⟨h1, _h2, h3, _h4⟩ := h
  obtain ⟨hz1, hz2, hz3, hz4⟩ := h3 rfl
  exact ⟨h1, hz1, hz2, hz3, hz4⟩


/-- The defined rate value the spec prescribes for a count/total pair:
count divided by total, with a zero denominator resolving to 0.0; always a
defined (`some`) value, never `NaN`. -/
def specRate (count total : Nat) : Option ℚ :=
  some (if 0 < total then (count : ℚ) / (total : ℚ) else 0)

theorem fillna0_rawPct_ne_none (c t : Nat) : fillna0 (rawPct c t) ≠ none := by
  rw [fillna0_rawPct]
  simp

theorem attachPerfTail_home_pcts_zero {c : PerfCore}
    (hw : c.home_wins_so_far = 0) (hd : c.home_draws_so_far = 0)
    (hl : c.home_losses_so_far = 0) :
    (attachPerfTail c).home_wins_pct_so_far = some 0
    ∧ (attachPerfTail c).home_draws_pct_so_far = some 0
    ∧ (attachPerfTail c).home_losses_pct_so_far = some 0 := by
  have h1 : (attachPerfTail c).home_wins_pct_so_far
      = fillna0 (rawPct c.home_wins_so_far
          (c.home_wins_so_far + c.home_draws_so_far
            + c.home_losses_so_far)) := rfl
  have h2 : (attachPerfTail c).home_draws_pct_so_far
      = fillna0 (rawPct c.home_draws_so_far
          (c.home_wins_so_far + c.home_draws_so_far
            + c.home_losses_so_far)) := rfl
  have h3 : (attachPerfTail c).home_losses_pct_so_far
      = fillna0 (rawPct c.home_losses_so_far
          (c.home_wins_so_far + c.home_draws_so_far
            + c.home_losses_so_far)) := rfl
  refine ⟨?_, ?_, ?_⟩
  · rw [h1, hw, hd, hl]; decide
  · rw [h2, hw, hd, hl]; decide
  · rw [h3, hw, hd, hl]; decide

theorem attachPerfTail_guest_pcts_zero {c : PerfCore}
    (hw : c.guest_wins_so_far = 0) (hd : c.guest_draws_so_far = 0)
    (hl : c.guest_losses_so_far = 0) :
    (attachPerfTail c).guest_wins_pct_so_far = some 0
    ∧ (attachPerfTail c).guest_draws_pct_so_far = some 0
    ∧ (attachPerfTail c).guest_losses_pct_so_far = some 0 := by
  have h1 : (attachPerfTail c).guest_wins_pct_so_far
      = fillna0 (rawPct c.guest_wins_so_far
          (c.guest_wins_so_far + c.guest_draws_so_far
            + c.guest_losses_so_far)) := rfl
  have h2 : (attachPerfTail c).guest_draws_pct_so_far
      = fillna0 (rawPct c.guest_draws_so_far
          (c.guest_wins_so_far + c.guest_draws_so_far
            + c.guest_losses_so_far)) := rfl
  have h3 : (attachPerfTail c).guest_losses_pct_so_far
      = fillna0 (rawPct c.guest_losses_so_far
          (c.guest_wins_so_far + c.guest_draws_so_far
            + c.guest_losses_so_far)) := rfl
  refine ⟨?_, ?_, ?_⟩
  · rw [h1, hw, hd, hl]; decide
  · rw [h2, hw, hd, hl]; decide
  · rw [h3, hw, hd, hl]; decide

/-- C8: zero-match correctness.  (a) Every rate column of every output row
of the season-performance pass equals the spec's defined formula: the
corresponding `*_so_far` count divided by that side's total
(wins+draws+losses) so far, a zero denominator resolving to exactly 0.0 —
and no rate column is ever `NaN` (`none`).  (b) For a team playing its
first-ever match of a season (no earlier same-year row in the sorted order
involves it), that side's `current_position` is `None` (never 0), all
`*_so_far` counts are 0 and the three rate columns are exactly 0.0. -/
theorem C8_zero_match_rates {α : Type} (base : α → MatchRow) (df : List α) :
    (∀ e ∈ add_season_performance_features base df,
      (e.2.home_wins_pct_so_far
          = specRate e.2.home_wins_so_far
              (e.2.home_wins_so_far + e.2.home_draws_so_far
                + e.2.home_losses_so_far)
        ∧ e.2.home_draws_pct_so_far
          = specRate e.2.home_draws_so_far
              (e.2.home_wins_so_far + e.2.home_draws_so_far
                + e.2.home_losses_so_far)
        ∧ e.2.home_losses_pct_so_far
          = specRate e.2.home_losses_so_far
              (e.2.home_wins_so_far + e.2.home_draws_so_far
                + e.2.home_losses_so_far)
        ∧ e.2.guest_wins_pct_so_far
          = specRate e.2.guest_wins_so_far
              (e.2.guest_wins_so_far + e.2.guest_draws_so_far
                + e.2.guest_losses_so_far)
        ∧ e.2.guest_draws_pct_so_far
          = specRate e.2.guest_draws_so_far
              (e.2.guest_wins_so_far + e.2.guest_draws_so_far
                + e.2.guest_losses_so_far)
        ∧ e.2.guest_losses_pct_so_far
          = specRate e.2.guest_losses_so_far
              (e.2.guest_wins_so_far + e.2.guest_draws_so_far
                + e.2.guest_losses_so_far))
      ∧ (e.2.home_wins_pct_so_far ≠ none ∧ e.2.home_draws_pct_so_far ≠ none
        ∧ e.2.home_losses_pct_so_far ≠ none
        ∧ e.2.guest_wins_pct_so_far ≠ none
        ∧ e.2.guest_draws_pct_so_far ≠ none
        ∧ e.2.guest_losses_pct_so_far ≠ none))
    ∧ (∀ (pre : List α) (a : α) (suf : List α),
        sortByDate base df = pre ++ a :: suf →
        ∀ team : String,
        (∀ x ∈ pre, yearOf (base x) = yearOf (base a) →
            (base x).home_team ≠ team ∧ (base x).guest_team ≠ team) →
        (team = (base a).home_team →
          ((posStep (posFold base initPosState pre)
              (base a)).1).home.current_position = none
          ∧ ((perfStep (perfFold base initPerfState pre)
                (base a)).1).home_wins_so_far = 0
          ∧ ((perfStep (perfFold base initPerfState pre)
                (base a)).1).home_draws_so_far = 0
          ∧ ((perfStep (perfFold base initPerfState pre)
                (base a)).1).home_losses_so_far = 0
          ∧ (attachPerfTail ((perfStep (perfFold base initPerfState pre)
                (base a)).1)).home_wins_pct_so_far = some 0
          ∧ (attachPerfTail ((perfStep (perfFold base initPerfState pre)
                (base a)).1)).home_draws_pct_so_far = some 0
          ∧ (attachPerfTail ((perfStep (perfFold base initPerfState pre)
                (base a)).1)).home_losses_pct_so_far = some 0)
        ∧ (team = (base a).guest_team →
          ((posStep (posFold base initPosState pre)
              (base a)).1).guest.current_position = none
          ∧ ((perfStep (perfFold base initPerfState pre)
                (base a)).1).guest_wins_so_far = 0
          ∧ ((perfStep (perfFold base initPerfState pre)
                (base a)).1).guest_draws_so_far = 0
          ∧ ((perfStep (perfFold base initPerfState pre)
                (base a)).1).guest_losses_so_far = 0
          ∧ (attachPerfTail ((perfStep (perfFold base initPerfState pre)
                (base a)).1)).guest_wins_pct_so_far = some 0
          ∧ (attachPerfTail ((perfStep (perfFold base initPerfState pre)
                (base a)).1)).guest_draws_pct_so_far = some 0
          ∧ (attachPerfTail ((perfStep (perfFold base initPerfState pre)
                (base a)).1)).guest_losses_pct_so_far = some 0)) := by
  constructor
  · intro e he
    unfold add_season_performance_features at he
    obtain ⟨p, _hp, hpe⟩ := List.mem_map.1 he
    subst hpe
    exact ⟨⟨fillna0_rawPct _ _, fillna0_rawPct _ _, fillna0_rawPct _ _,
        fillna0_rawPct _ _, fillna0_rawPct _ _, fillna0_rawPct _ _⟩,
      fillna0_rawPct_ne_none _ _, fillna0_rawPct_ne_none _ _,
      fillna0_rawPct_ne_none _ _, fillna0_rawPct_ne_none _ _,
      fillna0_rawPct_ne_none _ _, fillna0_rawPct_ne_none _ _⟩
  · intro pre a suf hsplit team hfresh
    obtain ⟨_h1, _h2, hhome, hguest⟩ :=
      season_debut base df pre a suf hsplit team hfresh
    constructor
    · intro hteam
      obtain ⟨hpos, hw, hd, hl⟩ := hhome hteam
      obtain ⟨hp1, hp2, hp3⟩ := attachPerfTail_home_pcts_zero hw hd hl
      exact ⟨by rw [hpos], hw, hd, hl, hp1, hp2, hp3⟩
    · intro hteam
      obtain ⟨hpos, hw, hd, hl⟩ := hguest hteam
      obtain ⟨hp1, hp2, hp3⟩ := attachPerfTail_guest_pcts_zero hw hd hl
      exact ⟨by rw [hpos], hw, hd, hl, hp1, hp2, hp3⟩

/-- C8 witness: the theorem at the two-season table `c7df` — the 2024 row
of `A` (its first-ever match) has rate columns exactly 0.0 and position
`None`, and the first emitted output row's rate columns equal the defined
formula. -/
theorem C8_zero_match_rates_witness :
    (((add_season_performance_features id c7df).getD 0
        (c7r1, (⟨none, 0, 0, 0, 0, 0, 0, some 0, some 0, some 0, some 0,
          some 0, some 0, 0, 0, 0⟩ : PerfFeats))).2.home_wins_pct_so_far
      ≠ none)
    ∧ ((posStep (posFold id initPosState []) (id c7r1)).1).home.current_position
        = none
    ∧ (attachPerfTail ((perfStep (perfFold id initPerfState [])
          (id c7r1)).1)).home_wins_pct_so_far = some 0 := by
  refine ⟨?_, ?_, ?_⟩
  · exact ((C8_zero_match_rates id c7df).1 _
      (getD_mem_of_lt _ 0 _ (by decide))).2.1
  · exact (((C8_zero_match_rates id c7df).2 [] c7r1 [c7r2] (by decide) "A"
      (by decide)).1 rfl).1
  · exact (((C8_zero_match_rates id c7df).2 [] c7r1 [c7r2] (by decide) "A"
      (by decide)).1 rfl).2.2.2.2.1
